import Mathlib

/-!
Verification of the riscv_fuzz_test core against its specification.

This file shallowly embeds the three core components of the repository:
the binary record decoder (src/output_parser/common.rs), the differential
comparator (src/output_diff/diff/mod.rs) and the backward-slice minimizer
(src/output_diff/analysis/shortten_asm_for_regs.rs together with the
register tokenizer in src/utils.rs).  Byte buffers are modelled as
List Nat (each element a byte value), machine integers as Nat, Rust
Vec/array as List, Option as Option and String as Lean String or
List Char.  Each Lean definition mirrors one Rust function and keeps its
name.  Theorems about the claims follow the definitions.
-/

set_option maxRecDepth 10000

namespace RiscvFuzz

/-! ### Data model (src/output_parser/mod.rs, src/elf/tracer.rs,
src/emulators/mod.rs) -/

def MARKER_REGISTERS_INT_ONLY : Nat := 0xFEEDC0DE2000

def MARKER_REGISTERS_INT_AND_FLOAT : Nat := 0xFEEDC0DE1000

def MARKER_EXCEPTION_CSR : Nat := 0xBADC0DE1000

inductive MarkerType where
  | registersIntOnly
  | registersIntAndFloat
  | exceptionCSR
  | unknown (marker : Nat)
deriving DecidableEq

structure CoreCSRs where
  mstatus : Nat
  misa : Nat
  medeleg : Nat
  mideleg : Nat
  mie : Nat
  mtvec : Nat
  mcounteren : Nat
  mscratch : Nat
  mepc : Nat
  mcause : Nat
  mtval : Nat
  mip : Nat
  mcycle : Nat
  minstret : Nat
  mvendorid : Nat
  marchid : Nat
  mimpid : Nat
  mhartid : Nat
deriving DecidableEq

structure ExceptionCSRs where
  mstatus : Nat
  mcause : Nat
  mepc : Nat
  mtval : Nat
  mie : Nat
  mip : Nat
  mtvec : Nat
  mscratch : Nat
  mhartid : Nat
deriving DecidableEq

structure InstructionTrace where
  pc : Nat
  disassembly : String
  machine_code : String
  original_instruction : String
deriving DecidableEq

structure RegistersDump where
  dump_type : MarkerType
  int_registers : List Nat
  core_csrs : CoreCSRs
  float_registers : Option (List Nat)
  float_csr : Option Nat
  position : Nat
deriving DecidableEq

structure ExceptionDump where
  csrs : ExceptionCSRs
  position : Nat
  inst_trace : Option InstructionTrace
deriving DecidableEq

inductive EmulatorType where
  | spike
  | rocket
deriving DecidableEq

/-- Display impl of EmulatorType. -/
def emulator_name : EmulatorType → String
  | .spike => "Spike"
  | .rocket => "Rocket"

inductive OutputItem where
  | asciiText (text : List Nat)
  | magicMarker (marker : Nat) (marker_type : MarkerType) (position : Nat)
  | registerData (marker_type : MarkerType) (registers : List Nat) (position : Nat)
  | exceptionData (csrs : ExceptionCSRs) (position : Nat)
  | unknownBinary (data : List Nat) (position : Nat)
deriving DecidableEq

/-- The byte position carried by an output item; AsciiText items carry
none in the source data model. -/
def item_position : OutputItem → Option Nat
  | .asciiText _ => none
  | .magicMarker _ _ p => some p
  | .registerData _ _ p => some p
  | .exceptionData _ p => some p
  | .unknownBinary _ p => some p

structure CommonExecutionOutput where
  emulator_type : EmulatorType
  raw_data_length : Nat
  output_items : List OutputItem
  register_dumps : List RegistersDump
  exception_dumps : List ExceptionDump
deriving DecidableEq

/-! ### Record decoder (src/output_parser/common.rs) -/

/-- read_u64_le: little-endian read of the first eight bytes, zero-padded
when fewer than eight bytes are available. -/
def read_u64_le (bytes : List Nat) : Nat :=
  bytes.getD 0 0 + bytes.getD 1 0 * 256 + bytes.getD 2 0 * 65536 +
    bytes.getD 3 0 * 16777216 + bytes.getD 4 0 * 4294967296 +
    bytes.getD 5 0 * 1099511627776 + bytes.getD 6 0 * 281474976710656 +
    bytes.getD 7 0 * 72057594037927936

/-- u64::to_le_bytes for a value below 2^64. -/
def to_le_bytes (v : Nat) : List Nat :=
  [v % 256, v / 256 % 256, v / 65536 % 256, v / 16777216 % 256,
   v / 4294967296 % 256, v / 1099511627776 % 256,
   v / 281474976710656 % 256, v / 72057594037927936 % 256]

def get_marker_type (marker : Nat) : Option MarkerType :=
  if marker = MARKER_REGISTERS_INT_ONLY then some .registersIntOnly
  else if marker = MARKER_REGISTERS_INT_AND_FLOAT then some .registersIntAndFloat
  else if marker = MARKER_EXCEPTION_CSR then some .exceptionCSR
  else none

/-- u8::is_ascii_graphic. -/
abbrev is_ascii_graphic (b : Nat) : Prop := 33 ≤ b ∧ b ≤ 126

/-- u8::is_ascii_whitespace: space, tab, line feed, form feed, carriage
return. -/
abbrev is_rust_ascii_whitespace (b : Nat) : Prop :=
  b = 32 ∨ b = 9 ∨ b = 10 ∨ b = 12 ∨ b = 13

/-- The byte scan inside try_parse_ascii_text: returns the number of
consumed bytes (the final text_end) and the has_printable flag. -/
def ascii_scan : List Nat → Nat × Bool
  | [] => (0, false)
  | b :: rest =>
    if b = 0 then (1, false)
    else if b ≤ 127 ∧ (is_ascii_graphic b ∨ is_rust_ascii_whitespace b) then
      ((ascii_scan rest).1 + 1, true)
    else if b < 32 ∧ b ≠ 10 ∧ b ≠ 13 ∧ b ≠ 9 then (0, false)
    else if 127 < b then (0, false)
    else ((ascii_scan rest).1 + 1, (ascii_scan rest).2)

/-- Removal of the trailing NUL terminator from the consumed bytes. -/
def strip_trailing_nul (l : List Nat) : List Nat :=
  if l.getLast? = some 0 then l.dropLast else l

/-- try_parse_ascii_text.  The String::from_utf8 conversion of the source
always succeeds because every accumulated byte is below 128, so the
embedding returns the text bytes directly. -/
def try_parse_ascii_text (data : List Nat) : Option (List Nat × Nat) :=
  let s := ascii_scan data
  if 0 < s.1 ∧ s.2 = true then
    some (strip_trailing_nul (data.take s.1), s.1)
  else none

/-- parse_int_registers: 32 integer registers then 18 core CSRs,
400 bytes. -/
def parse_int_registers (data : List Nat) : Option (List Nat × CoreCSRs × Nat) :=
  if data.length < 400 then none
  else
    some ((List.range 32).map (fun i => read_u64_le ((data.drop (8 * i)).take 8)),
      { mstatus := read_u64_le ((data.drop 256).take 8)
        misa := read_u64_le ((data.drop 264).take 8)
        medeleg := read_u64_le ((data.drop 272).take 8)
        mideleg := read_u64_le ((data.drop 280).take 8)
        mie := read_u64_le ((data.drop 288).take 8)
        mtvec := read_u64_le ((data.drop 296).take 8)
        mcounteren := read_u64_le ((data.drop 304).take 8)
        mscratch := read_u64_le ((data.drop 312).take 8)
        mepc := read_u64_le ((data.drop 320).take 8)
        mcause := read_u64_le ((data.drop 328).take 8)
        mtval := read_u64_le ((data.drop 336).take 8)
        mip := read_u64_le ((data.drop 344).take 8)
        mcycle := read_u64_le ((data.drop 352).take 8)
        minstret := read_u64_le ((data.drop 360).take 8)
        mvendorid := read_u64_le ((data.drop 368).take 8)
        marchid := read_u64_le ((data.drop 376).take 8)
        mimpid := read_u64_le ((data.drop 384).take 8)
        mhartid := read_u64_le ((data.drop 392).take 8) }, 400)

/-- parse_int_and_float_registers: integer registers, core CSRs, fcsr at
offset 400, 32 float registers from offset 408; 664 bytes. -/
def parse_int_and_float_registers (data : List Nat) :
    Option (List Nat × CoreCSRs × List Nat × Nat × Nat) :=
  if data.length < 664 then none
  else
    some ((List.range 32).map (fun i => read_u64_le ((data.drop (8 * i)).take 8)),
      { mstatus := read_u64_le ((data.drop 256).take 8)
        misa := read_u64_le ((data.drop 264).take 8)
        medeleg := read_u64_le ((data.drop 272).take 8)
        mideleg := read_u64_le ((data.drop 280).take 8)
        mie := read_u64_le ((data.drop 288).take 8)
        mtvec := read_u64_le ((data.drop 296).take 8)
        mcounteren := read_u64_le ((data.drop 304).take 8)
        mscratch := read_u64_le ((data.drop 312).take 8)
        mepc := read_u64_le ((data.drop 320).take 8)
        mcause := read_u64_le ((data.drop 328).take 8)
        mtval := read_u64_le ((data.drop 336).take 8)
        mip := read_u64_le ((data.drop 344).take 8)
        mcycle := read_u64_le ((data.drop 352).take 8)
        minstret := read_u64_le ((data.drop 360).take 8)
        mvendorid := read_u64_le ((data.drop 368).take 8)
        marchid := read_u64_le ((data.drop 376).take 8)
        mimpid := read_u64_le ((data.drop 384).take 8)
        mhartid := read_u64_le ((data.drop 392).take 8) },
      (List.range 32).map (fun i => read_u64_le ((data.drop (408 + 8 * i)).take 8)),
      read_u64_le ((data.drop 400).take 8), 664)

/-- parse_exception_csrs: nine CSRs, 72 bytes. -/
def parse_exception_csrs (data : List Nat) : Option (ExceptionCSRs × Nat) :=
  if data.length < 72 then none
  else
    some ({ mstatus := read_u64_le ((data.drop 0).take 8)
            mcause := read_u64_le ((data.drop 8).take 8)
            mepc := read_u64_le ((data.drop 16).take 8)
            mtval := read_u64_le ((data.drop 24).take 8)
            mie := read_u64_le ((data.drop 32).take 8)
            mip := read_u64_le ((data.drop 40).take 8)
            mtvec := read_u64_le ((data.drop 48).take 8)
            mscratch := read_u64_le ((data.drop 56).take 8)
            mhartid := read_u64_le ((data.drop 64).take 8) }, 72)

/-- looks_like_marker: at most three distinct byte values, or a well-known
magic constant in the low 32 bits. -/
abbrev looks_like_marker (value : Nat) : Prop :=
  (to_le_bytes value).dedup.length ≤ 3 ∨
    value % 4294967296 = 0xDEADBEEF ∨ value % 4294967296 = 0xCAFEBABE ∨
    value % 4294967296 = 0xFEEDFACE ∨ value % 4294967296 = 0xBADC0DE

/-- The 18 core CSR values in the order they are appended to the
RegisterData payload list. -/
def core_csr_values (c : CoreCSRs) : List Nat :=
  [c.mstatus, c.misa, c.medeleg, c.mideleg, c.mie, c.mtvec, c.mcounteren,
   c.mscratch, c.mepc, c.mcause, c.mtval, c.mip, c.mcycle, c.minstret,
   c.mvendorid, c.marchid, c.mimpid, c.mhartid]

/-- The nine exception CSR values in payload order. -/
def exception_csr_values (e : ExceptionCSRs) : List Nat :=
  [e.mstatus, e.mcause, e.mepc, e.mtval, e.mie, e.mip, e.mtvec,
   e.mscratch, e.mhartid]

/-- An output item annotated with the byte range it accounts for in the
scan: start position and number of consumed bytes.  The annotations are
bookkeeping of the embedding; the item component is the source's item. -/
structure AnnItem where
  item : OutputItem
  start : Nat
  len : Nat
deriving DecidableEq

structure DecodeOut where
  items : List AnnItem
  register_dumps : List RegistersDump
  exception_dumps : List ExceptionDump
deriving DecidableEq

/-- One iteration of the scan loop of parse_common_binary_data at
position pos (pos < data.length): the items and dumps pushed during the
iteration, and the new position. -/
def decode_step (data : List Nat) (pos : Nat) : DecodeOut × Nat :=
  match try_parse_ascii_text (data.drop pos) with
  | some (text, consumed) =>
    (⟨if text.isEmpty then [] else [⟨.asciiText text, pos, consumed⟩], [], []⟩,
      pos + consumed)
  | none =>
    if pos + 8 ≤ data.length then
      let m := read_u64_le ((data.drop pos).take 8)
      match get_marker_type m with
      | some mt =>
        let markerItem : AnnItem := ⟨.magicMarker m mt pos, pos, 8⟩
        match mt with
        | .registersIntOnly =>
          match parse_int_registers (data.drop (pos + 8)) with
          | some (regs, core, consumed) =>
            (⟨[markerItem,
               ⟨.registerData .registersIntOnly (regs ++ core_csr_values core) pos,
                pos + 8, consumed⟩],
              [⟨.registersIntOnly, regs, core, none, none, pos⟩], []⟩,
              pos + 8 + consumed)
          | none => (⟨[markerItem], [], []⟩, pos + 8)
        | .registersIntAndFloat =>
          match parse_int_and_float_registers (data.drop (pos + 8)) with
          | some (regs, core, fregs, fcsr, consumed) =>
            (⟨[markerItem,
               ⟨.registerData .registersIntAndFloat
                  (regs ++ core_csr_values core ++ [fcsr] ++ fregs) pos,
                pos + 8, consumed⟩],
              [⟨.registersIntAndFloat, regs, core, some fregs, some fcsr, pos⟩], []⟩,
              pos + 8 + consumed)
          | none => (⟨[markerItem], [], []⟩, pos + 8)
        | .exceptionCSR =>
          match parse_exception_csrs (data.drop (pos + 8)) with
          | some (csrs, consumed) =>
            (⟨[markerItem, ⟨.exceptionData csrs pos, pos + 8, consumed⟩],
              [], [⟨csrs, pos, none⟩]⟩, pos + 8 + consumed)
          | none => (⟨[markerItem], [], []⟩, pos + 8)
        | .unknown _ => (⟨[markerItem], [], []⟩, pos + 8)
      | none =>
        if looks_like_marker m then
          (⟨[⟨.magicMarker m (.unknown m) pos, pos, 8⟩], [], []⟩, pos + 8)
        else
          let chunk := min 8 (data.length - pos)
          (⟨[⟨.unknownBinary ((data.drop pos).take chunk) pos, pos, chunk⟩], [], []⟩,
            pos + chunk)
    else
      let chunk := min 8 (data.length - pos)
      (⟨[⟨.unknownBinary ((data.drop pos).take chunk) pos, pos, chunk⟩], [], []⟩,
        pos + chunk)

/-- The scan loop, with explicit fuel for structural recursion.  Every
iteration consumes at least one byte, so fuel data.length never runs out
before the position reaches the end of the buffer. -/
def decode_fuel (data : List Nat) : Nat → Nat → DecodeOut
  | 0, _ => ⟨[], [], []⟩
  | fuel + 1, pos =>
    if pos < data.length then
      let s := decode_step data pos
      let rest := decode_fuel data fuel s.2
      ⟨s.1.items ++ rest.items, s.1.register_dumps ++ rest.register_dumps,
        s.1.exception_dumps ++ rest.exception_dumps⟩
    else ⟨[], [], []⟩

/-- parse_common_binary_data.  The source returns Result but has no error
path, so the embedding is total. -/
def parse_common_binary_data (data : List Nat) (emulator_type : EmulatorType) :
    CommonExecutionOutput :=
  let out := decode_fuel data data.length 0
  ⟨emulator_type, data.length, out.items.map (fun a => a.item),
    out.register_dumps, out.exception_dumps⟩

/-! ### Backward-slice minimizer (src/utils.rs and shortten_asm_for_regs.rs) -/

/-- Rust char::is_whitespace: the Unicode White_Space code points. -/
def rust_char_is_whitespace (c : Char) : Bool :=
  let n := c.toNat
  (9 ≤ n && n ≤ 13) || n == 32 || n == 0x85 || n == 0xA0 || n == 0x1680 ||
    (0x2000 ≤ n && n ≤ 0x200A) || n == 0x2028 || n == 0x2029 ||
    n == 0x202F || n == 0x205F || n == 0x3000

def is_digit_char (c : Char) : Bool :=
  48 ≤ c.toNat && c.toNat ≤ 57

def digits_to_nat (cs : List Char) : Nat :=
  cs.foldl (fun acc c => acc * 10 + (c.toNat - 48)) 0

/-- Rust str::parse::<u32>: optional leading plus sign, then one or more
decimal digits, value must fit in 32 bits. -/
def parse_u32 (cs : List Char) : Option Nat :=
  let cs2 := match cs with
    | c :: rest => if c = '+' then rest else c :: rest
    | [] => []
  if cs2.isEmpty then none
  else if cs2.all is_digit_char then
    let v := digits_to_nat cs2
    if v < 4294967296 then some v else none
  else none

/-- The trim predicate of process_token: whitespace, comma or colon. -/
def trim_reg_char (c : Char) : Bool :=
  rust_char_is_whitespace c || c == ',' || c == ':'

/-- Rust str::trim_matches with the predicate above. -/
def trim_matches (cs : List Char) : List Char :=
  ((cs.dropWhile trim_reg_char).reverse.dropWhile trim_reg_char).reverse

/-- src/utils.rs process_token.  The Rust function splits the cleaned token
into its first character and the rest; the embedding works at character
granularity (the Rust byte slice of the tail coincides with the character
split whenever the first character is ASCII, which holds on every token the
function accepts, since it must start with x or f). -/
def process_token (token : List Char) (regs : List String) : List String :=
  let cleaned := trim_matches token
  if cleaned.length < 2 then regs
  else
    match cleaned with
    | [] => regs
    | first :: rest =>
      if first = 'x' || first = 'f' then
        match parse_u32 rest with
        | some n => if n ≤ 31 then regs ++ [String.mk (first :: rest)] else regs
        | none => regs
      else regs

/-- The character scan of src/utils.rs get_regs_in_inst: accumulate the
current token, flushing it through process_token at separators. -/
def get_regs_in_inst_chars : List Char → List Char → List String → List String
  | [], current, regs =>
    if current = [] then regs else process_token current regs
  | c :: rest, current, regs =>
    if c = '(' || c = ')' || c = ',' || c = ' ' || c = '\t' then
      if current = [] then get_regs_in_inst_chars rest [] regs
      else get_regs_in_inst_chars rest [] (process_token current regs)
    else get_regs_in_inst_chars rest (current ++ [c]) regs

/-- src/utils.rs get_regs_in_inst. -/
def get_regs_in_inst (inst : String) : List String :=
  get_regs_in_inst_chars inst.toList [] []

/-- HashSet::insert for every register of the instruction; the set of
interested registers is modelled as a duplicate-free list where only
membership is ever observed. -/
def insert_regs (regs : List String) (interested : List String) : List String :=
  regs.foldl (fun s r => if s.contains r then s else r :: s) interested

/-- The reverse-order scan of extract_minimal_instructions_for_regs:
the argument list is the instruction list already reversed, the result is
the kept instructions in reversed (scan) order. -/
def extract_loop : List String → List String → List String
  | [], _ => []
  | inst :: rest, interested =>
    let regs := get_regs_in_inst inst
    if regs.any (fun r => interested.contains r) then
      inst :: extract_loop rest (insert_regs regs interested)
    else
      extract_loop rest interested

/-- src/output_diff/analysis/shortten_asm_for_regs.rs
extract_minimal_instructions_for_regs. -/
def extract_minimal_instructions_for_regs
    (insts : List String) (target_regs : List String) : List String :=
  if insts.isEmpty || target_regs.isEmpty then []
  else (extract_loop insts.reverse target_regs).reverse

/-! ### Annotation predicates for the decoder claims -/

/-- The annotated items tile the byte range from s to e: consecutive,
gap-free, overlap-free, each of positive length. -/
def ann_tiles : Nat → List AnnItem → Nat → Prop
  | s, [], e => s = e
  | s, a :: rest, e => a.start = s ∧ 0 < a.len ∧ ann_tiles (s + a.len) rest e

/-- The byte_offset values of the position-bearing output items,
in emission order. -/
def positions_of (items : List OutputItem) : List Nat :=
  items.filterMap item_position

/-- The byte values the decoder's text scan actually accumulates:
ASCII graphic, Rust ASCII whitespace (space, tab, LF, FF, CR), or DEL. -/
abbrev decoder_text_byte (b : Nat) : Prop :=
  is_ascii_graphic b ∨ is_rust_ascii_whitespace b ∨ b = 127

/-- The byte classes the claim says the text scan accumulates:
printable ASCII, or newline, carriage return and tab. -/
abbrev claimed_text_byte (b : Nat) : Prop :=
  (32 ≤ b ∧ b ≤ 126) ∨ b = 9 ∨ b = 10 ∨ b = 13

/-- Payload length required after each known marker (section 6 of the
spec and the guards of the three parse functions). -/
def required_payload_len : MarkerType → Nat
  | .registersIntOnly => 400
  | .registersIntAndFloat => 664
  | .exceptionCSR => 72
  | .unknown _ => 0

/-! ### Record encoders (claim C3; layout from section 6 of the spec) -/

def encode_int_only_record (regs : List Nat) (c : CoreCSRs) : List Nat :=
  to_le_bytes MARKER_REGISTERS_INT_ONLY ++
    ((regs ++ core_csr_values c).map to_le_bytes).flatten

def encode_int_and_float_record (regs : List Nat) (c : CoreCSRs)
    (fcsr : Nat) (fregs : List Nat) : List Nat :=
  to_le_bytes MARKER_REGISTERS_INT_AND_FLOAT ++
    ((regs ++ core_csr_values c ++ [fcsr] ++ fregs).map to_le_bytes).flatten

def encode_exception_record (e : ExceptionCSRs) : List Nat :=
  to_le_bytes MARKER_EXCEPTION_CSR ++
    ((exception_csr_values e).map to_le_bytes).flatten

/-! ### Differential comparator (src/output_diff/diff/mod.rs) -/

/-- src/output_parser/util.rs get_register_name. -/
def get_register_name (reg_num : Nat) : String :=
  match reg_num with
  | 0 => "zero" | 1 => "ra" | 2 => "sp" | 3 => "gp" | 4 => "tp"
  | 5 => "t0" | 6 => "t1" | 7 => "t2" | 8 => "s0" | 9 => "s1"
  | 10 => "a0" | 11 => "a1" | 12 => "a2" | 13 => "a3" | 14 => "a4"
  | 15 => "a5" | 16 => "a6" | 17 => "a7" | 18 => "s2" | 19 => "s3"
  | 20 => "s4" | 21 => "s5" | 22 => "s6" | 23 => "s7" | 24 => "s8"
  | 25 => "s9" | 26 => "s10" | 27 => "s11" | 28 => "t3" | 29 => "t4"
  | 30 => "t5" | 31 => "t6" | _ => "invalid"

/-- src/output_parser/util.rs get_exception_description. -/
def get_exception_description (mcause : Nat) : String :=
  let interrupt := mcause / 9223372036854775808 % 2 = 1
  let exception_code := mcause % 9223372036854775808
  if interrupt then
    match exception_code with
    | 0 => "User software interrupt"
    | 1 => "Supervisor software interrupt"
    | 3 => "Machine software interrupt"
    | 4 => "User timer interrupt"
    | 5 => "Supervisor timer interrupt"
    | 7 => "Machine timer interrupt"
    | 8 => "User external interrupt"
    | 9 => "Supervisor external interrupt"
    | 11 => "Machine external interrupt"
    | _ => "Unknown interrupt (code=" ++ toString exception_code ++ ")"
  else
    match exception_code with
    | 0 => "Instruction address misaligned"
    | 1 => "Instruction access fault"
    | 2 => "Illegal instruction"
    | 3 => "Breakpoint"
    | 4 => "Load address misaligned"
    | 5 => "Load access fault"
    | 6 => "Store/AMO address misaligned"
    | 7 => "Store/AMO access fault"
    | 8 => "Environment call from U-mode"
    | 9 => "Environment call from S-mode"
    | 11 => "Environment call from M-mode"
    | 12 => "Instruction page fault"
    | 13 => "Load page fault"
    | 15 => "Store/AMO page fault"
    | _ => "Unknown exception (code=" ++ toString exception_code ++ ")"

inductive ExceptionDiffCategory where
  | FixedMipDifference (sim1_value sim2_value : Nat)
  | McauseDifference (sim1_cause sim2_cause : Nat)
  | OnlyInSimulator (simulator : EmulatorType) (mcause : Nat)
  | MtvalDifference
  | OtherCsrDifference (csr_name : String)
deriving DecidableEq

inductive ExceptionDiffInfo where
  | OnlyInSimulator (simulator : EmulatorType) (pc : Nat) (mcause : Nat)
      (description : String) (instruction_trace : Option InstructionTrace)
  | CsrDifference (pc : Nat) (csr_name : String) (sim1_value sim2_value : Nat)
      (sim1_description sim2_description : Option String)
      (instruction_trace : Option InstructionTrace)
deriving DecidableEq

/-- ExceptionDiffInfo::get_category. -/
def get_category : ExceptionDiffInfo → ExceptionDiffCategory
  | .OnlyInSimulator simulator _ mcause _ _ => .OnlyInSimulator simulator mcause
  | .CsrDifference _ csr_name sim1_value sim2_value _ _ _ =>
    if csr_name = "mip" then .FixedMipDifference sim1_value sim2_value
    else if csr_name = "mcause" then .McauseDifference sim1_value sim2_value
    else if csr_name = "mtval" then .MtvalDifference
    else .OtherCsrDifference csr_name

/-- ExceptionDiffInfo::get_pc. -/
def get_pc : ExceptionDiffInfo → Nat
  | .OnlyInSimulator _ pc _ _ _ => pc
  | .CsrDifference pc _ _ _ _ _ _ => pc

def get_instruction_trace : ExceptionDiffInfo → Option InstructionTrace
  | .OnlyInSimulator _ _ _ _ t => t
  | .CsrDifference _ _ _ _ _ _ t => t

/-- format_category_name (the tie-break key of the final sort). -/
def format_category_name : ExceptionDiffCategory → String
  | .FixedMipDifference _ _ => "Fixed MIP Difference"
  | .McauseDifference _ _ => "MCAUSE Difference"
  | .OnlyInSimulator simulator _ => "Exception only in " ++ emulator_name simulator
  | .MtvalDifference => "MTVAL Difference"
  | .OtherCsrDifference csr_name => csr_name ++ " Difference"

def hex_digit (n : Nat) : Char :=
  if n < 10 then Char.ofNat (48 + n) else Char.ofNat (55 + n)

def hex_chars_fuel : Nat → Nat → List Char
  | 0, _ => []
  | fuel + 1, n => if n = 0 then [] else hex_chars_fuel fuel (n / 16) ++ [hex_digit (n % 16)]

/-- Rust format with the upper hexadecimal conversion, no padding. -/
def to_hex_upper (n : Nat) : String :=
  if n = 0 then "0" else String.mk (hex_chars_fuel n n)

/-- The per-diff brief summary strings built by
analyze_and_categorize_exception_diffs. -/
def summary_of_diff : ExceptionDiffInfo → String
  | .OnlyInSimulator _ pc mcause _ tr =>
    "PC: 0x" ++ to_hex_upper pc ++
      (match tr with | some t => " (" ++ t.disassembly ++ ")" | none => "") ++
      ", Mcause: 0x" ++ to_hex_upper mcause
  | .CsrDifference pc csr_name sim1_value sim2_value _ _ tr =>
    "PC: 0x" ++ to_hex_upper pc ++
      (match tr with | some t => " (" ++ t.disassembly ++ ")" | none => "") ++
      ", CSR: " ++ csr_name ++ ", Sim1: 0x" ++ to_hex_upper sim1_value ++
      ", Sim2: 0x" ++ to_hex_upper sim2_value

structure CategorizedExceptionDiffs where
  category : ExceptionDiffCategory
  diffs_summary : List String
  count : Nat
  pc_list : List Nat
  pc_instruction_traces : List (Option InstructionTrace)
deriving DecidableEq

/-- Vec::dedup on a list: remove consecutive duplicates. -/
def dedup_consecutive : List Nat → List Nat
  | [] => []
  | [a] => [a]
  | a :: b :: rest =>
    if a = b then dedup_consecutive (b :: rest) else a :: dedup_consecutive (b :: rest)

/-- The body of the map in analyze_and_categorize_exception_diffs: build
one CategorizedExceptionDiffs from a category and its raw diff list. -/
def categorize_group (category : ExceptionDiffCategory)
    (diff_list : List ExceptionDiffInfo) : CategorizedExceptionDiffs :=
  let pc_sorted :=
    dedup_consecutive (List.insertionSort (fun a b => a ≤ b) (diff_list.map get_pc))
  { category := category
    diffs_summary := diff_list.map summary_of_diff
    count := diff_list.length
    pc_list := pc_sorted
    pc_instruction_traces := pc_sorted.map (fun pc =>
      (diff_list.find? (fun d => get_pc d == pc)).bind get_instruction_trace) }

/-- Lexicographic comparison of character lists by code point; on the
ASCII category names this is exactly Rust's String::cmp byte order. -/
def char_list_le : List Char → List Char → Bool
  | [], _ => true
  | _ :: _, [] => false
  | x :: xs, y :: ys =>
    if x.toNat < y.toNat then true
    else if y.toNat < x.toNat then false
    else char_list_le xs ys

/-- Rust String ordering (less or equal). -/
def string_le (a b : String) : Bool :=
  char_list_le a.toList b.toList

/-- The comparator of the final sort_by, as a binary relation: group a may
come before group b when b has a smaller count, or the counts are equal and
the category name of a is at most that of b.  Rust's sort_by is a stable
sort by this comparator; insertionSort with this relation is that stable
sort. -/
def cat_le (a b : CategorizedExceptionDiffs) : Prop :=
  b.count < a.count ∨
    (a.count = b.count ∧
      string_le (format_category_name a.category) (format_category_name b.category) = true)

instance cat_le_dec : DecidableRel cat_le := fun a b => by
  unfold cat_le; infer_instance

/-- analyze_and_categorize_exception_diffs.  The iteration order of the
internal HashMap over categories is not determined by the input; it is
passed explicitly as cat_order, the list of (distinct) category keys in
the order the map yields them. -/
def analyze_and_categorize_exception_diffs (cat_order : List ExceptionDiffCategory)
    (raw_diffs : List ExceptionDiffInfo) : List CategorizedExceptionDiffs :=
  let groups := cat_order.map (fun c =>
    categorize_group c (raw_diffs.filter (fun d => decide (get_category d = c))))
  List.insertionSort cat_le groups

structure RegistersDumpDiff where
  emulator_type1 : EmulatorType
  emulator_type2 : EmulatorType
  int_registers_diff : List (Nat × String × Nat × Nat)
  core_csrs_diff : List (String × Nat × Nat)
  float_registers_status_changed : Option (String × String)
  float_registers_diff : List (Nat × Nat × Nat)
  float_csr_status_changed : Option (String × String)
  float_csr_diff : Option (Nat × Nat)
deriving DecidableEq

/-- One conditional push of a named CSR difference. -/
def diff_cell3 (name : String) (v1 v2 : Nat) : List (String × Nat × Nat) :=
  if v1 ≠ v2 then [(name, v1, v2)] else []

/-- compare_core_csrs: the 18 conditional pushes in source order. -/
def compare_core_csrs (c1 c2 : CoreCSRs) : List (String × Nat × Nat) :=
  diff_cell3 "mstatus" c1.mstatus c2.mstatus ++
  diff_cell3 "misa" c1.misa c2.misa ++
  diff_cell3 "medeleg" c1.medeleg c2.medeleg ++
  diff_cell3 "mideleg" c1.mideleg c2.mideleg ++
  diff_cell3 "mie" c1.mie c2.mie ++
  diff_cell3 "mtvec" c1.mtvec c2.mtvec ++
  diff_cell3 "mcounteren" c1.mcounteren c2.mcounteren ++
  diff_cell3 "mscratch" c1.mscratch c2.mscratch ++
  diff_cell3 "mepc" c1.mepc c2.mepc ++
  diff_cell3 "mcause" c1.mcause c2.mcause ++
  diff_cell3 "mtval" c1.mtval c2.mtval ++
  diff_cell3 "mip" c1.mip c2.mip ++
  diff_cell3 "mcycle" c1.mcycle c2.mcycle ++
  diff_cell3 "minstret" c1.minstret c2.minstret ++
  diff_cell3 "mvendorid" c1.mvendorid c2.mvendorid ++
  diff_cell3 "marchid" c1.marchid c2.marchid ++
  diff_cell3 "mimpid" c1.mimpid c2.mimpid ++
  diff_cell3 "mhartid" c1.mhartid c2.mhartid

/-- compare_exception_csrs: the nine conditional pushes in source order. -/
def compare_exception_csrs (c1 c2 : ExceptionCSRs) : List (String × Nat × Nat) :=
  diff_cell3 "mstatus" c1.mstatus c2.mstatus ++
  diff_cell3 "mcause" c1.mcause c2.mcause ++
  diff_cell3 "mepc" c1.mepc c2.mepc ++
  diff_cell3 "mtval" c1.mtval c2.mtval ++
  diff_cell3 "mie" c1.mie c2.mie ++
  diff_cell3 "mip" c1.mip c2.mip ++
  diff_cell3 "mtvec" c1.mtvec c2.mtvec ++
  diff_cell3 "mscratch" c1.mscratch c2.mscratch ++
  diff_cell3 "mhartid" c1.mhartid c2.mhartid

/-- One iteration of the integer-register comparison loop. -/
def int_cell (d1 d2 : List Nat) (i : Nat) : List (Nat × String × Nat × Nat) :=
  if d1.getD i 0 ≠ d2.getD i 0 then
    [(i, get_register_name i, d1.getD i 0, d2.getD i 0)] else []

/-- One iteration of the float-register comparison loop. -/
def float_cell (f1 f2 : List Nat) (i : Nat) : List (Nat × Nat × Nat) :=
  if f1.getD i 0 ≠ f2.getD i 0 then [(i, f1.getD i 0, f2.getD i 0)] else []

/-- Concatenate the pushes of a loop over the given index list. -/
def cells {α : Type} (f : Nat → List α) : List Nat → List α
  | [] => []
  | i :: rest => f i ++ cells f rest

/-- compare_registers_dumps. -/
def compare_registers_dumps (dump1 dump2 : RegistersDump)
    (sim1_type sim2_type : EmulatorType) : RegistersDumpDiff :=
  { emulator_type1 := sim1_type
    emulator_type2 := sim2_type
    int_registers_diff :=
      cells (int_cell dump1.int_registers dump2.int_registers) (List.range 32)
    core_csrs_diff := compare_core_csrs dump1.core_csrs dump2.core_csrs
    float_registers_status_changed :=
      match dump1.float_registers, dump2.float_registers with
      | some _, none => some ("Present", "Absent")
      | none, some _ => some ("Absent", "Present")
      | _, _ => none
    float_registers_diff :=
      match dump1.float_registers, dump2.float_registers with
      | some f1, some f2 => cells (float_cell f1 f2) (List.range 32)
      | _, _ => []
    float_csr_status_changed :=
      match dump1.float_csr, dump2.float_csr with
      | some _, none => some ("Present", "Absent")
      | none, some _ => some ("Absent", "Present")
      | _, _ => none
    float_csr_diff :=
      match dump1.float_csr, dump2.float_csr with
      | some fcsr1, some fcsr2 => if fcsr1 ≠ fcsr2 then some (fcsr1, fcsr2) else none
      | _, _ => none }

/-- Swap the two sides of a register-dump diff (claim C7). -/
def swap_diff (d : RegistersDumpDiff) : RegistersDumpDiff :=
  { emulator_type1 := d.emulator_type2
    emulator_type2 := d.emulator_type1
    int_registers_diff := d.int_registers_diff.map (fun t => (t.1, t.2.1, t.2.2.2, t.2.2.1))
    core_csrs_diff := d.core_csrs_diff.map (fun t => (t.1, t.2.2, t.2.1))
    float_registers_status_changed :=
      d.float_registers_status_changed.map (fun t => (t.2, t.1))
    float_registers_diff := d.float_registers_diff.map (fun t => (t.1, t.2.2, t.2.1))
    float_csr_status_changed := d.float_csr_status_changed.map (fun t => (t.2, t.1))
    float_csr_diff := d.float_csr_diff.map (fun t => (t.2, t.1)) }

structure PairedExceptionDiff where
  exception1 : ExceptionDump
  exception2 : ExceptionDump
  csrs_differences : List (String × Nat × Nat)
deriving DecidableEq

structure ExceptionListDiff where
  sim1_emulator_type : EmulatorType
  sim2_emulator_type : EmulatorType
  list1_only_exceptions : List ExceptionDump
  list2_only_exceptions : List ExceptionDump
  paired_exceptions_diffs : List PairedExceptionDiff
  categorized_summary : List CategorizedExceptionDiffs
deriving DecidableEq

def default_exception_dump : ExceptionDump :=
  ⟨⟨0, 0, 0, 0, 0, 0, 0, 0, 0⟩, 0, none⟩

/-- The entry of list2_map for a given mepc: the indices of list2 whose
mepc equals it, in ascending order. -/
def mepc_indices (list2 : List ExceptionDump) (mepc : Nat) : List Nat :=
  (List.range list2.length).filter
    (fun i => (list2.getD i default_exception_dump).csrs.mepc == mepc)

/-- The CsrDifference raw diff pushed for each per-field difference of a
paired exception. -/
def csr_diff_info (ex1 : ExceptionDump) (mepc : Nat)
    (t : String × Nat × Nat) : ExceptionDiffInfo :=
  .CsrDifference mepc t.1 t.2.1 t.2.2
    (if t.1 = "mcause" then some (get_exception_description t.2.1) else none)
    (if t.1 = "mcause" then some (get_exception_description t.2.2) else none)
    ex1.inst_trace

/-- The OnlyInSimulator raw diff pushed for an unmatched exception. -/
def only_in_info (sim : EmulatorType) (ex : ExceptionDump) : ExceptionDiffInfo :=
  .OnlyInSimulator sim ex.csrs.mepc ex.csrs.mcause
    (get_exception_description ex.csrs.mcause) ex.inst_trace

structure MatchOut where
  list1_only : List ExceptionDump
  paired : List PairedExceptionDiff
  raw : List ExceptionDiffInfo
  matched : List Bool
deriving DecidableEq

/-- The list1 processing loop of compare_exception_dump_lists; matched is
the list2_matched_indices vector. -/
def match_loop (list2 : List ExceptionDump) (sim1 : EmulatorType) :
    List ExceptionDump → List Bool → MatchOut
  | [], matched => ⟨[], [], [], matched⟩
  | ex1 :: rest, matched =>
    match (mepc_indices list2 ex1.csrs.mepc).find? (fun i => !(matched.getD i false)) with
    | some j =>
      let ex2 := list2.getD j default_exception_dump
      let ds := compare_exception_csrs ex1.csrs ex2.csrs
      let out := match_loop list2 sim1 rest (matched.set j true)
      ⟨out.list1_only, ⟨ex1, ex2, ds⟩ :: out.paired,
        ds.map (csr_diff_info ex1 ex1.csrs.mepc) ++ out.raw, out.matched⟩
    | none =>
      let out := match_loop list2 sim1 rest matched
      ⟨ex1 :: out.list1_only, out.paired, only_in_info sim1 ex1 :: out.raw, out.matched⟩

/-- compare_exception_dump_lists.  cat_order is the iteration order of the
categorization HashMap (see analyze_and_categorize_exception_diffs); the
inner list2_map is only used for keyed lookup and needs no order. -/
def compare_exception_dump_lists (cat_order : List ExceptionDiffCategory)
    (list1 list2 : List ExceptionDump)
    (sim1_type sim2_type : EmulatorType) : ExceptionListDiff :=
  let out := match_loop list2 sim1_type list1 (List.replicate list2.length false)
  let list2_only := (List.range list2.length).filterMap (fun i =>
    if out.matched.getD i false then none
    else some (list2.getD i default_exception_dump))
  let raw2 := (List.range list2.length).filterMap (fun i =>
    if out.matched.getD i false then none
    else some (only_in_info sim2_type (list2.getD i default_exception_dump)))
  let raw := out.raw ++ raw2
  { sim1_emulator_type := sim1_type
    sim2_emulator_type := sim2_type
    list1_only_exceptions := out.list1_only
    list2_only_exceptions := list2_only
    paired_exceptions_diffs := out.paired
    categorized_summary :=
      if raw.isEmpty then []
      else analyze_and_categorize_exception_diffs cat_order raw }

/-! ### Specification-side matcher (claim C2).  These definitions follow
the claim's words, to be compared with the source embedding above. -/

/-- Modelled from the claim: the lowest-index unconsumed entry of list_b
sharing the given mepc. -/
def lowest_unconsumed_index (list_b : List ExceptionDump) (consumed : List Bool)
    (mepc : Nat) : Option Nat :=
  (List.range list_b.length).find? (fun i =>
    !(consumed.getD i false) &&
      ((list_b.getD i default_exception_dump).csrs.mepc == mepc))

structure SpecMatchResult where
  paired : List (ExceptionDump × ExceptionDump)
  only_in_a : List ExceptionDump
  only_in_b : List ExceptionDump
deriving DecidableEq

/-- Modelled from the claim: walk list_a in order, pairing each entry with
the lowest-index unconsumed list_b entry of equal mepc, otherwise sending
it to only_in_a; returns the pairs, only_in_a, and the consumption state. -/
def spec_walk (list_b : List ExceptionDump) :
    List ExceptionDump → List Bool →
    List (ExceptionDump × ExceptionDump) × List ExceptionDump × List Bool
  | [], consumed => ([], [], consumed)
  | a :: rest, consumed =>
    match lowest_unconsumed_index list_b consumed a.csrs.mepc with
    | some j =>
      let r := spec_walk list_b rest (consumed.set j true)
      ((a, list_b.getD j default_exception_dump) :: r.1, r.2.1, r.2.2)
    | none =>
      let r := spec_walk list_b rest consumed
      (r.1, a :: r.2.1, r.2.2)

/-- Modelled from the claim: the full matching result, with every
still-unconsumed list_b entry in only_in_b. -/
def compare_exceptions_spec (list_a list_b : List ExceptionDump) : SpecMatchResult :=
  let r := spec_walk list_b list_a (List.replicate list_b.length false)
  ⟨r.1, r.2.1,
    (List.range list_b.length).filterMap (fun i =>
      if r.2.2.getD i false then none
      else some (list_b.getD i default_exception_dump))⟩

end RiscvFuzz

namespace RiscvFuzz

/-! ### Lemmas on the minimizer -/

/-- Rescanning the kept instructions with the same initial interested set
keeps all of them: discarded instructions never changed the interested set,
so the set evolution along the kept subsequence replays identically. -/
theorem extract_loop_idem (l : List String) :
    ∀ S, extract_loop (extract_loop l S) S = extract_loop l S := by
  induction l with
  | nil => intro S; rfl
  | cons inst rest ih =>
    intro S
    cases h : (get_regs_in_inst inst).any (fun r => S.contains r) with
    | true =>
      simp only [extract_loop, h, if_true]
      exact congrArg _ (ih (insert_regs (get_regs_in_inst inst) S))
    | false =>
      simp only [extract_loop, h, if_false]
      exact ih S

end RiscvFuzz

/-- C8: minimize is a fixed point on its own output: running the minimizer
again on its result with the same target registers returns it unchanged. -/
theorem c8_minimize_fixed_point (insts target_regs : List String) :
    RiscvFuzz.extract_minimal_instructions_for_regs
      (RiscvFuzz.extract_minimal_instructions_for_regs insts target_regs) target_regs
      = RiscvFuzz.extract_minimal_instructions_for_regs insts target_regs := by
  unfold RiscvFuzz.extract_minimal_instructions_for_regs
  by_cases h1 : insts.isEmpty || target_regs.isEmpty
  · simp [h1]
  · simp only [h1, if_neg, Bool.false_eq_true, not_false_iff]
    by_cases h2 : (RiscvFuzz.extract_loop insts.reverse target_regs).reverse.isEmpty
    · simp only [h2, Bool.true_or, if_pos]
      rw [List.isEmpty_iff, List.reverse_eq_nil_iff] at h2
      simp [h2]
    · have ht : target_regs.isEmpty = false := by
        cases ht2 : target_regs.isEmpty
        · rfl
        · rw [ht2, Bool.or_true] at h1; exact absurd rfl h1
      simp only [h2, ht, Bool.false_or, Bool.or_false, if_neg, Bool.false_eq_true,
        not_false_iff]
      rw [List.reverse_reverse]
      rw [RiscvFuzz.extract_loop_idem]

/-- C9: on the concrete four-instruction program with target register x7 the
minimizer keeps exactly the three dependent instructions in program order. -/
theorem c9_minimize_concrete :
    RiscvFuzz.extract_minimal_instructions_for_regs
      ["addi x5,x0,1", "addi x6,x0,2", "add x7,x5,x6", "addi x8,x0,9"] ["x7"]
      = ["addi x5,x0,1", "addi x6,x0,2", "add x7,x5,x6"] := by
  decide

namespace RiscvFuzz

/-! ### Lemmas on the register-dump comparator -/

theorem diff_cell3_swap (n : String) (a b : Nat) :
    diff_cell3 n b a = (diff_cell3 n a b).map (fun t => (t.1, t.2.2, t.2.1)) := by
  by_cases h : a = b
  · subst h; simp [diff_cell3]
  · simp [diff_cell3, h, Ne.symm h]

theorem compare_core_csrs_swap (c1 c2 : CoreCSRs) :
    compare_core_csrs c2 c1 =
      (compare_core_csrs c1 c2).map (fun t => (t.1, t.2.2, t.2.1)) := by
  unfold compare_core_csrs
  simp only [List.map_append]
  rw [diff_cell3_swap "mstatus" c1.mstatus c2.mstatus,
    diff_cell3_swap "misa" c1.misa c2.misa,
    diff_cell3_swap "medeleg" c1.medeleg c2.medeleg,
    diff_cell3_swap "mideleg" c1.mideleg c2.mideleg,
    diff_cell3_swap "mie" c1.mie c2.mie,
    diff_cell3_swap "mtvec" c1.mtvec c2.mtvec,
    diff_cell3_swap "mcounteren" c1.mcounteren c2.mcounteren,
    diff_cell3_swap "mscratch" c1.mscratch c2.mscratch,
    diff_cell3_swap "mepc" c1.mepc c2.mepc,
    diff_cell3_swap "mcause" c1.mcause c2.mcause,
    diff_cell3_swap "mtval" c1.mtval c2.mtval,
    diff_cell3_swap "mip" c1.mip c2.mip,
    diff_cell3_swap "mcycle" c1.mcycle c2.mcycle,
    diff_cell3_swap "minstret" c1.minstret c2.minstret,
    diff_cell3_swap "mvendorid" c1.mvendorid c2.mvendorid,
    diff_cell3_swap "marchid" c1.marchid c2.marchid,
    diff_cell3_swap "mimpid" c1.mimpid c2.mimpid,
    diff_cell3_swap "mhartid" c1.mhartid c2.mhartid]

theorem cells_map {α β : Type} (g : α → β) (f : Nat → List α) (l : List Nat) :
    (cells f l).map g = cells (fun i => (f i).map g) l := by
  induction l with
  | nil => rfl
  | cons i rest ih => simp [cells, ih]

theorem cells_congr {α : Type} (f f' : Nat → List α) (l : List Nat)
    (h : ∀ i ∈ l, f i = f' i) : cells f l = cells f' l := by
  induction l with
  | nil => rfl
  | cons i rest ih =>
    simp only [cells]
    rw [h i (List.mem_cons_self i rest), ih (fun j hj => h j (List.mem_cons_of_mem i hj))]

theorem int_cell_swap (d1 d2 : List Nat) (i : Nat) :
    int_cell d2 d1 i = (int_cell d1 d2 i).map (fun t => (t.1, t.2.1, t.2.2.2, t.2.2.1)) := by
  unfold int_cell
  by_cases h : d1.getD i 0 = d2.getD i 0
  · rw [if_neg (not_not_intro h.symm), if_neg (not_not_intro h)]; rfl
  · rw [if_pos (fun e => h e.symm), if_pos h]; rfl

theorem float_cell_swap (f1 f2 : List Nat) (i : Nat) :
    float_cell f2 f1 i = (float_cell f1 f2 i).map (fun t => (t.1, t.2.2, t.2.1)) := by
  unfold float_cell
  by_cases h : f1.getD i 0 = f2.getD i 0
  · rw [if_neg (not_not_intro h.symm), if_neg (not_not_intro h)]; rfl
  · rw [if_pos (fun e => h e.symm), if_pos h]; rfl

end RiscvFuzz

/-- C7: compare_registers(b, a) reports exactly the differences of
compare_registers(a, b) with the two sides (values and presence statuses)
swapped: the differing indices, register names and CSR names coincide. -/
theorem c7_compare_registers_swap (d1 d2 : RiscvFuzz.RegistersDump)
    (s1 s2 : RiscvFuzz.EmulatorType) :
    RiscvFuzz.compare_registers_dumps d2 d1 s2 s1 =
      RiscvFuzz.swap_diff (RiscvFuzz.compare_registers_dumps d1 d2 s1 s2) := by
  simp only [RiscvFuzz.compare_registers_dumps, RiscvFuzz.swap_diff,
    RiscvFuzz.RegistersDumpDiff.mk.injEq]
  refine ⟨trivial, trivial, ?_, ?_, ?_, ?_, ?_, ?_⟩
  · rw [RiscvFuzz.cells_map]
    exact RiscvFuzz.cells_congr _ _ _ (fun i _ => RiscvFuzz.int_cell_swap _ _ i)
  · exact RiscvFuzz.compare_core_csrs_swap _ _
  · cases d1.float_registers <;> cases d2.float_registers <;> simp
  · cases d1.float_registers <;> cases d2.float_registers <;> simp
    rw [RiscvFuzz.cells_map]
    exact RiscvFuzz.cells_congr _ _ _ (fun i _ => RiscvFuzz.float_cell_swap _ _ i)
  · cases d1.float_csr <;> cases d2.float_csr <;> simp
  · cases ha : d1.float_csr <;> cases hb : d2.float_csr <;> simp
    rename_i a b
    by_cases h : a = b
    · simp [h]
    · simp [h, Ne.symm h]


namespace RiscvFuzz

/-! ### Lemmas on the ASCII text scan -/

theorem ascii_scan_le (l : List Nat) : (ascii_scan l).1 ≤ l.length := by
  induction l with
  | nil => simp [ascii_scan]
  | cons b rest ih =>
    unfold ascii_scan
    by_cases h0 : b = 0
    · rw [if_pos h0]; simp
    · rw [if_neg h0]
      by_cases h1 : b ≤ 127 ∧ (is_ascii_graphic b ∨ is_rust_ascii_whitespace b)
      · rw [if_pos h1]; simpa using Nat.succ_le_succ ih
      · rw [if_neg h1]
        by_cases h2 : b < 32 ∧ b ≠ 10 ∧ b ≠ 13 ∧ b ≠ 9
        · rw [if_pos h2]; simp
        · rw [if_neg h2]
          by_cases h3 : 127 < b
          · rw [if_pos h3]; simp
          · rw [if_neg h3]; simpa using Nat.succ_le_succ ih

theorem strip_trailing_nul_cons (b : Nat) (t : List Nat) (h : t ≠ []) :
    strip_trailing_nul (b :: t) = b :: strip_trailing_nul t := by
  rcases t with _ | ⟨c, t2⟩
  · exact absurd rfl h
  · unfold strip_trailing_nul
    rw [List.getLast?_cons_cons]
    by_cases h2 : (c :: t2).getLast? = some 0
    · rw [if_pos h2, if_pos h2, List.dropLast_cons₂]
    · rw [if_neg h2, if_neg h2]

theorem strip_trailing_nul_single (b : Nat) (h : b ≠ 0) :
    strip_trailing_nul [b] = [b] := by
  unfold strip_trailing_nul
  rw [if_neg]
  simp [h]

/-- In the final (else) branch of the scan only DEL can occur. -/
theorem ascii_scan_else_char (b : Nat) (h0 : ¬b = 0)
    (h1 : ¬(b ≤ 127 ∧ (is_ascii_graphic b ∨ is_rust_ascii_whitespace b)))
    (h2 : ¬(b < 32 ∧ b ≠ 10 ∧ b ≠ 13 ∧ b ≠ 9)) (h3 : ¬127 < b) : b = 127 := by
  unfold is_ascii_graphic is_rust_ascii_whitespace at h1
  omega

/-- Every byte of the text returned by the scan (after stripping the
trailing NUL) is a byte the decoder accumulates: graphic, Rust ASCII
whitespace or DEL. -/
theorem ascii_scan_text_bytes (l : List Nat) :
    ∀ b ∈ strip_trailing_nul (l.take (ascii_scan l).1), decoder_text_byte b := by
  induction l with
  | nil => simp [ascii_scan, strip_trailing_nul]
  | cons b rest ih =>
    have step : ∀ hb : decoder_text_byte b, b ≠ 0 →
        ∀ x ∈ strip_trailing_nul (b :: rest.take (ascii_scan rest).1),
          decoder_text_byte x := by
      intro hb hb0 x hx
      by_cases ht : rest.take (ascii_scan rest).1 = []
      · rw [ht, strip_trailing_nul_single b hb0, List.mem_singleton] at hx
        subst hx; exact hb
      · rw [strip_trailing_nul_cons b _ ht, List.mem_cons] at hx
        rcases hx with hx | hx
        · subst hx; exact hb
        · exact ih x hx
    unfold ascii_scan
    by_cases h0 : b = 0
    · subst h0; simp [strip_trailing_nul]
    · rw [if_neg h0]
      by_cases h1 : b ≤ 127 ∧ (is_ascii_graphic b ∨ is_rust_ascii_whitespace b)
      · rw [if_pos h1]
        simp only [List.take_succ_cons]
        refine step ?_ h0
        rcases h1.2 with hg | hw
        · exact Or.inl hg
        · exact Or.inr (Or.inl hw)
      · rw [if_neg h1]
        by_cases h2 : b < 32 ∧ b ≠ 10 ∧ b ≠ 13 ∧ b ≠ 9
        · rw [if_pos h2]; simp [strip_trailing_nul]
        · rw [if_neg h2]
          by_cases h3 : 127 < b
          · rw [if_pos h3]; simp [strip_trailing_nul]
          · rw [if_neg h3]
            simp only [List.take_succ_cons]
            exact step (Or.inr (Or.inr (ascii_scan_else_char b h0 h1 h2 h3))) h0

/-- When the scan saw a printable byte the stripped text is nonempty. -/
theorem ascii_scan_printable_nonempty (l : List Nat) (h : (ascii_scan l).2 = true) :
    strip_trailing_nul (l.take (ascii_scan l).1) ≠ [] := by
  induction l with
  | nil => simp [ascii_scan] at h
  | cons b rest ih =>
    have step : b ≠ 0 →
        strip_trailing_nul (b :: rest.take (ascii_scan rest).1) ≠ [] := by
      intro hb0
      by_cases ht : rest.take (ascii_scan rest).1 = []
      · rw [ht, strip_trailing_nul_single b hb0]; simp
      · rw [strip_trailing_nul_cons b _ ht]; simp
    unfold ascii_scan at h ⊢
    by_cases h0 : b = 0
    · rw [if_pos h0] at h; simp at h
    · rw [if_neg h0] at h ⊢
      by_cases h1 : b ≤ 127 ∧ (is_ascii_graphic b ∨ is_rust_ascii_whitespace b)
      · rw [if_pos h1]
        simp only [List.take_succ_cons]
        exact step h0
      · rw [if_neg h1] at h ⊢
        by_cases h2 : b < 32 ∧ b ≠ 10 ∧ b ≠ 13 ∧ b ≠ 9
        · rw [if_pos h2] at h; simp at h
        · rw [if_neg h2] at h ⊢
          by_cases h3 : 127 < b
          · rw [if_pos h3] at h; simp at h
          · rw [if_neg h3] at h ⊢
            simp only [List.take_succ_cons]
            exact step h0

/-- Inversion of try_parse_ascii_text: the text is the stripped consumed
prefix, the consumed count is positive and bounded, the text is nonempty
and all its bytes are accumulated bytes. -/
theorem try_parse_ascii_text_some (data : List Nat) (t : List Nat) (c : Nat)
    (h : try_parse_ascii_text data = some (t, c)) :
    t = strip_trailing_nul (data.take (ascii_scan data).1) ∧
      c = (ascii_scan data).1 ∧ 0 < c ∧ c ≤ data.length ∧ t ≠ [] ∧
      ∀ b ∈ t, decoder_text_byte b := by
  unfold try_parse_ascii_text at h
  by_cases hc : 0 < (ascii_scan data).1 ∧ (ascii_scan data).2 = true
  · rw [if_pos hc] at h
    injection h with h
    injection h with h1 h2
    subst h1; subst h2
    refine ⟨rfl, rfl, hc.1, ascii_scan_le data, ?_, ?_⟩
    · exact ascii_scan_printable_nonempty data hc.2
    · exact ascii_scan_text_bytes data
  · rw [if_neg hc] at h
    exact absurd h (by simp)

end RiscvFuzz

namespace RiscvFuzz

/-! ### Lemmas on one decoder step -/

theorem parse_int_registers_some (d : List Nat) (r : List Nat) (c : CoreCSRs) (n : Nat)
    (h : parse_int_registers d = some (r, c, n)) : n = 400 ∧ 400 ≤ d.length := by
  unfold parse_int_registers at h
  by_cases hl : d.length < 400
  · rw [if_pos hl] at h; exact absurd h (by simp)
  · rw [if_neg hl] at h
    injection h with h
    injection h with h1 h2
    injection h2 with h3 h4
    exact ⟨h4.symm, le_of_not_lt hl⟩

theorem parse_int_and_float_registers_some (d : List Nat) (r : List Nat) (c : CoreCSRs)
    (f : List Nat) (fc : Nat) (n : Nat)
    (h : parse_int_and_float_registers d = some (r, c, f, fc, n)) :
    n = 664 ∧ 664 ≤ d.length := by
  unfold parse_int_and_float_registers at h
  by_cases hl : d.length < 664
  · rw [if_pos hl] at h; exact absurd h (by simp)
  · rw [if_neg hl] at h
    injection h with h
    injection h with h1 h2
    injection h2 with h3 h4
    injection h4 with h5 h6
    injection h6 with h7 h8
    exact ⟨h8.symm, le_of_not_lt hl⟩

theorem parse_exception_csrs_some (d : List Nat) (c : ExceptionCSRs) (n : Nat)
    (h : parse_exception_csrs d = some (c, n)) : n = 72 ∧ 72 ≤ d.length := by
  unfold parse_exception_csrs at h
  by_cases hl : d.length < 72
  · rw [if_pos hl] at h; exact absurd h (by simp)
  · rw [if_neg hl] at h
    injection h with h
    injection h with h1 h2
    exact ⟨h2.symm, le_of_not_lt hl⟩

/-- All facts about one step of the scan loop needed by the claims:
the position strictly advances and stays in bounds, the emitted annotated
items tile exactly the consumed byte range, every position-bearing item of
the step carries the step's start position, and so does every dump. -/
theorem decode_step_spec (data : List Nat) (pos : Nat) (h : pos < data.length) :
    pos < (decode_step data pos).2 ∧ (decode_step data pos).2 ≤ data.length ∧
    ann_tiles pos (decode_step data pos).1.items (decode_step data pos).2 ∧
    (∀ a ∈ (decode_step data pos).1.items, ∀ p, item_position a.item = some p → p = pos) ∧
    (∀ d ∈ (decode_step data pos).1.register_dumps, d.position = pos) ∧
    (∀ e ∈ (decode_step data pos).1.exception_dumps, e.position = pos) := by
  unfold decode_step
  cases htp : try_parse_ascii_text (data.drop pos) with
  | some pr =>
    obtain ⟨t, c⟩ := pr
    obtain ⟨ht, hc, hcpos, hcle, htne, _⟩ := try_parse_ascii_text_some _ _ _ htp
    have hlen : c ≤ data.length - pos := by
      have := List.length_drop pos data
      omega
    have hte : t.isEmpty = false := by
      cases hte2 : t.isEmpty
      · rfl
      · rw [List.isEmpty_iff] at hte2; exact absurd hte2 htne
    try dsimp only
    simp only [hte, Bool.false_eq_true, if_false, if_neg]
    refine ⟨by omega, by omega, ?_, ?_, by simp, by simp⟩
    · simp [ann_tiles] <;> omega
    · intro a ha p hp
      simp only [List.mem_singleton] at ha
      subst ha
      simp [item_position] at hp
  | none =>
    try dsimp only
    by_cases h8 : pos + 8 ≤ data.length
    · rw [if_pos h8]
      try dsimp only
      cases hm : get_marker_type (read_u64_le ((data.drop pos).take 8)) with
      | some mt =>
        try dsimp only
        cases mt with
        | registersIntOnly =>
          cases hp : parse_int_registers (data.drop (pos + 8)) with
          | some pr =>
            obtain ⟨regs, core, consumed⟩ := pr
            obtain ⟨hn, hlen⟩ := parse_int_registers_some _ _ _ _ hp
            have hdl : (data.drop (pos + 8)).length = data.length - (pos + 8) :=
              List.length_drop _ _
            subst hn
            try dsimp only
            refine ⟨by omega, by omega, ?_, ?_, ?_, by simp⟩
            · simp [ann_tiles] <;> omega
            · intro a ha p hpp
              simp only [List.mem_cons, List.mem_singleton, List.not_mem_nil, or_false] at ha
              rcases ha with ha | ha
              · subst ha; simp [item_position] at hpp; omega
              · subst ha; simp [item_position] at hpp; omega
            · intro d hd
              simp only [List.mem_singleton] at hd
              subst hd; rfl
          | none =>
            try dsimp only
            refine ⟨by omega, by omega, ?_, ?_, by simp, by simp⟩
            · simp [ann_tiles] <;> omega
            · intro a ha p hpp
              simp only [List.mem_singleton] at ha
              subst ha; simp [item_position] at hpp; omega
        | registersIntAndFloat =>
          cases hp : parse_int_and_float_registers (data.drop (pos + 8)) with
          | some pr =>
            obtain ⟨regs, core, fregs, fcsr, consumed⟩ := pr
            obtain ⟨hn, hlen⟩ := parse_int_and_float_registers_some _ _ _ _ _ _ hp
            have hdl : (data.drop (pos + 8)).length = data.length - (pos + 8) :=
              List.length_drop _ _
            subst hn
            try dsimp only
            refine ⟨by omega, by omega, ?_, ?_, ?_, by simp⟩
            · simp [ann_tiles] <;> omega
            · intro a ha p hpp
              simp only [List.mem_cons, List.mem_singleton, List.not_mem_nil, or_false] at ha
              rcases ha with ha | ha
              · subst ha; simp [item_position] at hpp; omega
              · subst ha; simp [item_position] at hpp; omega
            · intro d hd
              simp only [List.mem_singleton] at hd
              subst hd; rfl
          | none =>
            try dsimp only
            refine ⟨by omega, by omega, ?_, ?_, by simp, by simp⟩
            · simp [ann_tiles] <;> omega
            · intro a ha p hpp
              simp only [List.mem_singleton] at ha
              subst ha; simp [item_position] at hpp; omega
        | exceptionCSR =>
          cases hp : parse_exception_csrs (data.drop (pos + 8)) with
          | some pr =>
            obtain ⟨csrs, consumed⟩ := pr
            obtain ⟨hn, hlen⟩ := parse_exception_csrs_some _ _ _ hp
            have hdl : (data.drop (pos + 8)).length = data.length - (pos + 8) :=
              List.length_drop _ _
            subst hn
            try dsimp only
            refine ⟨by omega, by omega, ?_, ?_, by simp, ?_⟩
            · simp [ann_tiles] <;> omega
            · intro a ha p hpp
              simp only [List.mem_cons, List.mem_singleton, List.not_mem_nil, or_false] at ha
              rcases ha with ha | ha
              · subst ha; simp [item_position] at hpp; omega
              · subst ha; simp [item_position] at hpp; omega
            · intro e he
              simp only [List.mem_singleton] at he
              subst he; rfl
          | none =>
            try dsimp only
            refine ⟨by omega, by omega, ?_, ?_, by simp, by simp⟩
            · simp [ann_tiles] <;> omega
            · intro a ha p hpp
              simp only [List.mem_singleton] at ha
              subst ha; simp [item_position] at hpp; omega
        | unknown v =>
          try dsimp only
          refine ⟨by omega, by omega, ?_, ?_, by simp, by simp⟩
          · simp [ann_tiles] <;> omega
          · intro a ha p hpp
            simp only [List.mem_singleton] at ha
            subst ha; simp [item_position] at hpp; omega
      | none =>
        try dsimp only
        by_cases hlk : looks_like_marker (read_u64_le ((data.drop pos).take 8))
        · rw [if_pos hlk]
          refine ⟨by omega, by omega, ?_, ?_, by simp, by simp⟩
          · simp [ann_tiles] <;> omega
          · intro a ha p hpp
            simp only [List.mem_singleton] at ha
            subst ha; simp [item_position] at hpp; omega
        · rw [if_neg hlk]
          try dsimp only
          refine ⟨by omega, by omega, ?_, ?_, by simp, by simp⟩
          · simp [ann_tiles] <;> omega
          · intro a ha p hpp
            simp only [List.mem_singleton] at ha
            subst ha; simp [item_position] at hpp; omega
    · rw [if_neg h8]
      try dsimp only
      refine ⟨by omega, by omega, ?_, ?_, by simp, by simp⟩
      · simp [ann_tiles] <;> omega
      · intro a ha p hpp
        simp only [List.mem_singleton] at ha
        subst ha; simp [item_position] at hpp; omega

end RiscvFuzz

namespace RiscvFuzz

/-! ### Lemmas on the scan loop -/

theorem ann_tiles_append (l1 l2 : List AnnItem) :
    ∀ a b c, ann_tiles a l1 b → ann_tiles b l2 c → ann_tiles a (l1 ++ l2) c := by
  induction l1 with
  | nil =>
    intro a b c h1 h2
    unfold ann_tiles at h1
    subst h1
    simpa using h2
  | cons x rest ih =>
    intro a b c h1 h2
    obtain ⟨hs, hl, ht⟩ := h1
    exact ⟨hs, hl, ih _ _ _ ht h2⟩

theorem ann_tiles_sum (l : List AnnItem) :
    ∀ a b, ann_tiles a l b → a + (l.map (fun x => x.len)).sum = b := by
  induction l with
  | nil => intro a b h; unfold ann_tiles at h; simpa using h
  | cons x rest ih =>
    intro a b h
    obtain ⟨hs, hl, ht⟩ := h
    have := ih _ _ ht
    simp only [List.map_cons, List.sum_cons]
    omega

theorem pairwise_le_of_forall_eq (L : List Nat) (v : Nat) (h : ∀ x ∈ L, x = v) :
    List.Pairwise (fun x y => x ≤ y) L := by
  induction L with
  | nil => exact List.Pairwise.nil
  | cons x rest ih =>
    refine List.Pairwise.cons ?_ (ih (fun y hy => h y (List.mem_cons_of_mem x hy)))
    intro y hy
    rw [h x (List.mem_cons_self x rest), h y (List.mem_cons_of_mem x hy)]

theorem positions_of_append (l1 l2 : List OutputItem) :
    positions_of (l1 ++ l2) = positions_of l1 ++ positions_of l2 :=
  List.filterMap_append l1 l2 item_position

theorem mem_positions_map (l : List AnnItem) (q : Nat) :
    q ∈ positions_of (l.map (fun a => a.item)) ↔
      ∃ a ∈ l, item_position a.item = some q := by
  simp [positions_of, List.mem_filterMap, List.mem_map]

theorem decode_fuel_succ_of_lt (data : List Nat) (fuel pos : Nat)
    (h : pos < data.length) :
    decode_fuel data (fuel + 1) pos =
      ⟨(decode_step data pos).1.items ++
          (decode_fuel data fuel (decode_step data pos).2).items,
        (decode_step data pos).1.register_dumps ++
          (decode_fuel data fuel (decode_step data pos).2).register_dumps,
        (decode_step data pos).1.exception_dumps ++
          (decode_fuel data fuel (decode_step data pos).2).exception_dumps⟩ := by
  conv_lhs => rw [decode_fuel]
  rw [if_pos h]

theorem decode_fuel_stop (data : List Nat) (fuel pos : Nat)
    (h : ¬pos < data.length) : decode_fuel data fuel pos = ⟨[], [], []⟩ := by
  cases fuel with
  | zero => rfl
  | succ fuel => unfold decode_fuel; rw [if_neg h]

/-- The loop invariant: starting at pos with enough fuel, the annotated
items tile the range from pos to the end of the buffer, all positions are
at least pos and non-decreasing in emission order, and all dumps carry
positions at least pos. -/
theorem decode_fuel_spec (data : List Nat) :
    ∀ fuel pos, data.length ≤ pos + fuel → pos ≤ data.length →
    ann_tiles pos (decode_fuel data fuel pos).items data.length ∧
    (∀ q ∈ positions_of ((decode_fuel data fuel pos).items.map (fun a => a.item)),
      pos ≤ q) ∧
    List.Pairwise (fun x y => x ≤ y)
      (positions_of ((decode_fuel data fuel pos).items.map (fun a => a.item))) ∧
    (∀ d ∈ (decode_fuel data fuel pos).register_dumps, pos ≤ d.position) ∧
    (∀ e ∈ (decode_fuel data fuel pos).exception_dumps, pos ≤ e.position) := by
  intro fuel
  induction fuel with
  | zero =>
    intro pos h1 h2
    have hpl : pos = data.length := by omega
    refine ⟨by simpa [decode_fuel, ann_tiles] using hpl, ?_, ?_, ?_, ?_⟩ <;>
      simp [decode_fuel, positions_of]
  | succ fuel ih =>
    intro pos h1 h2
    by_cases hp : pos < data.length
    · obtain ⟨hlt, hle, htiles, hpos, hrd, hed⟩ := decode_step_spec data pos hp
      obtain ⟨ih1, ih2, ih3, ih4, ih5⟩ := ih (decode_step data pos).2 (by omega) hle
      rw [decode_fuel_succ_of_lt data fuel pos hp]
      dsimp only
      refine ⟨?_, ?_, ?_, ?_, ?_⟩
      · exact ann_tiles_append _ _ _ _ _ htiles ih1
      · intro q hq
        rw [List.map_append, positions_of_append, List.mem_append] at hq
        rcases hq with hq | hq
        · obtain ⟨a, ha, hqa⟩ := (mem_positions_map _ _).mp hq
          exact le_of_eq (hpos a ha q hqa).symm
        · exact le_trans (le_of_lt hlt) (ih2 q hq)
      · rw [List.map_append, positions_of_append]
        rw [List.pairwise_append]
        refine ⟨?_, ih3, ?_⟩
        · refine pairwise_le_of_forall_eq _ pos ?_
          intro x hx
          obtain ⟨a, ha, hqa⟩ := (mem_positions_map _ _).mp hx
          exact hpos a ha x hqa
        · intro x hx y hy
          obtain ⟨a, ha, hqa⟩ := (mem_positions_map _ _).mp hx
          have hxx : x = pos := hpos a ha x hqa
          have : (decode_step data pos).2 ≤ y := ih2 y hy
          omega
      · intro d hd
        rw [List.mem_append] at hd
        rcases hd with hd | hd
        · exact le_of_eq (hrd d hd).symm
        · exact le_trans (le_of_lt hlt) (ih4 d hd)
      · intro e he
        rw [List.mem_append] at he
        rcases he with he | he
        · exact le_of_eq (hed e he).symm
        · exact le_trans (le_of_lt hlt) (ih5 e he)
    · rw [decode_fuel_stop data _ pos hp]
      have hpl : pos = data.length := by omega
      refine ⟨by simpa [ann_tiles] using hpl, ?_, ?_, ?_, ?_⟩ <;>
        simp [positions_of]

end RiscvFuzz

/-- C1 (amended): for every input buffer the annotated output items of the
decoder tile the whole buffer consecutively with no gaps or overlaps, the
sum of consumed lengths equals the buffer length, and the byte_offset
values of the position-bearing output items are non-decreasing (a payload
record shares the position of its marker, so the order is not strict). -/
theorem c1_decoder_coverage (data : List Nat) (et : RiscvFuzz.EmulatorType) :
    RiscvFuzz.ann_tiles 0 (RiscvFuzz.decode_fuel data data.length 0).items data.length ∧
    ((RiscvFuzz.decode_fuel data data.length 0).items.map (fun a => a.len)).sum
      = data.length ∧
    List.Pairwise (fun x y => x ≤ y)
      (RiscvFuzz.positions_of (RiscvFuzz.parse_common_binary_data data et).output_items) := by
  obtain ⟨h1, _, h3, _, _⟩ :=
    RiscvFuzz.decode_fuel_spec data data.length 0 (by omega) (by omega)
  refine ⟨h1, ?_, ?_⟩
  · have := RiscvFuzz.ann_tiles_sum _ _ _ h1
    omega
  · exact h3

/-- C1 (counterexample to strictness): a well-formed exception record
produces a MagicMarker item and an ExceptionData item with the same
byte_offset 0, so the byte_offset sequence is not strictly increasing. -/
theorem c1_not_strictly_increasing :
    (RiscvFuzz.parse_common_binary_data
        (RiscvFuzz.to_le_bytes RiscvFuzz.MARKER_EXCEPTION_CSR ++ List.replicate 72 0)
        RiscvFuzz.EmulatorType.spike).output_items =
      [RiscvFuzz.OutputItem.magicMarker 0xBADC0DE1000
          RiscvFuzz.MarkerType.exceptionCSR 0,
        RiscvFuzz.OutputItem.exceptionData ⟨0, 0, 0, 0, 0, 0, 0, 0, 0⟩ 0] ∧
    ¬ List.Pairwise (fun x y => x < y)
      (RiscvFuzz.positions_of
        (RiscvFuzz.parse_common_binary_data
          (RiscvFuzz.to_le_bytes RiscvFuzz.MARKER_EXCEPTION_CSR ++ List.replicate 72 0)
          RiscvFuzz.EmulatorType.spike).output_items) := by
  constructor
  · decide
  · decide

namespace RiscvFuzz

/-! ### Per-branch origin of AsciiText items -/

theorem decode_step_ascii_bytes (data : List Nat) (pos : Nat) :
    ∀ a ∈ (decode_step data pos).1.items, ∀ t, a.item = OutputItem.asciiText t →
      ∀ b ∈ t, decoder_text_byte b := by
  intro a ha t hat b hb
  unfold decode_step at ha
  split at ha
  · rename_i pr text consumed heq
    obtain ⟨ht, hc, _, _, _, hbytes⟩ := try_parse_ascii_text_some _ _ _ heq
    dsimp only at ha
    split at ha
    · exact absurd ha (List.not_mem_nil a)
    · rw [List.mem_singleton] at ha
      subst ha
      dsimp only at hat
      injection hat with h
      subst h
      exact hbytes b hb
  · rename_i heq
    dsimp only at ha
    split at ha
    · split at ha
      · split at ha
        · split at ha
          · simp only [List.mem_cons, List.mem_singleton, List.not_mem_nil, or_false] at ha
            rcases ha with ha | ha <;> (subst ha; simp at hat)
          · rw [List.mem_singleton] at ha; subst ha; simp at hat
        · split at ha
          · simp only [List.mem_cons, List.mem_singleton, List.not_mem_nil, or_false] at ha
            rcases ha with ha | ha <;> (subst ha; simp at hat)
          · rw [List.mem_singleton] at ha; subst ha; simp at hat
        · split at ha
          · simp only [List.mem_cons, List.mem_singleton, List.not_mem_nil, or_false] at ha
            rcases ha with ha | ha <;> (subst ha; simp at hat)
          · rw [List.mem_singleton] at ha; subst ha; simp at hat
        · rw [List.mem_singleton] at ha; subst ha; simp at hat
      · split at ha
        · rw [List.mem_singleton] at ha; subst ha; simp at hat
        · rw [List.mem_singleton] at ha; subst ha; simp at hat
    · rw [List.mem_singleton] at ha; subst ha; simp at hat

theorem decode_fuel_ascii_bytes (data : List Nat) :
    ∀ fuel pos, ∀ a ∈ (decode_fuel data fuel pos).items,
      ∀ t, a.item = OutputItem.asciiText t → ∀ b ∈ t, decoder_text_byte b := by
  intro fuel
  induction fuel with
  | zero => intro pos a ha; exact absurd ha (by simp [decode_fuel])
  | succ fuel ih =>
    intro pos a ha t hat b hb
    by_cases hp : pos < data.length
    · rw [decode_fuel_succ_of_lt data fuel pos hp] at ha
      dsimp only at ha
      rw [List.mem_append] at ha
      rcases ha with ha | ha
      · exact decode_step_ascii_bytes data pos a ha t hat b hb
      · exact ih _ a ha t hat b hb
    · rw [decode_fuel_stop data _ pos hp] at ha
      exact absurd ha (by simp)

end RiscvFuzz

/-- C5 (amended): every AsciiText item emitted by the decoder consists
solely of bytes the scan accumulates: printable (graphic) ASCII, the Rust
ASCII whitespace bytes space, tab, LF, form feed and CR, or DEL (127). -/
theorem c5_text_items_bytes (data : List Nat) (et : RiscvFuzz.EmulatorType) :
    ∀ item ∈ (RiscvFuzz.parse_common_binary_data data et).output_items,
      ∀ t, item = RiscvFuzz.OutputItem.asciiText t →
        ∀ b ∈ t, RiscvFuzz.decoder_text_byte b := by
  intro item hitem t hit b hb
  have : (RiscvFuzz.parse_common_binary_data data et).output_items
      = (RiscvFuzz.decode_fuel data data.length 0).items.map (fun a => a.item) := rfl
  rw [this, List.mem_map] at hitem
  obtain ⟨a, ha, haq⟩ := hitem
  exact RiscvFuzz.decode_fuel_ascii_bytes data data.length 0 a ha t (haq.trans hit) b hb

/-- C5 (witness): the theorem applied to the one-byte buffer consisting of
the letter A. -/
theorem c5_text_items_bytes_witness :
    (RiscvFuzz.OutputItem.asciiText [65] ∈
      (RiscvFuzz.parse_common_binary_data [65] RiscvFuzz.EmulatorType.spike).output_items) ∧
    (∀ b ∈ [65], RiscvFuzz.decoder_text_byte b) :=
  ⟨by decide, fun b hb =>
    c5_text_items_bytes [65] RiscvFuzz.EmulatorType.spike
      (RiscvFuzz.OutputItem.asciiText [65]) (by decide) [65] rfl b hb⟩

/-- C5 (counterexample): the form-feed byte 12 is a control byte below 32
other than newline, carriage return and tab, yet the decoder consumes it
and emits it inside an AsciiText item, because Rust is_ascii_whitespace
also covers form feed. -/
theorem c5_formfeed_consumed :
    (RiscvFuzz.parse_common_binary_data [12] RiscvFuzz.EmulatorType.spike).output_items
      = [RiscvFuzz.OutputItem.asciiText [12]] ∧
    12 < 32 ∧ ¬ RiscvFuzz.claimed_text_byte 12 := by
  refine ⟨by decide, by decide, by decide⟩

namespace RiscvFuzz

/-! ### Byte-level helper lemmas -/

theorem length_to_le_bytes (v : Nat) : (to_le_bytes v).length = 8 := rfl

theorem take_8_to_le_append (v : Nat) (l : List Nat) :
    (to_le_bytes v ++ l).take 8 = to_le_bytes v := by
  have := List.take_left (to_le_bytes v) l
  rwa [length_to_le_bytes] at this

theorem drop_8_to_le_append (v : Nat) (l : List Nat) :
    (to_le_bytes v ++ l).drop 8 = l := by
  have := List.drop_left (to_le_bytes v) l
  rwa [length_to_le_bytes] at this

theorem read_u64_le_to_le_bytes (v : Nat) (h : v < 18446744073709551616) :
    read_u64_le (to_le_bytes v) = v := by
  unfold read_u64_le to_le_bytes
  simp only [List.getD_cons_zero, List.getD_cons_succ]
  omega

theorem get_marker_type_inv (m : Nat) (mt : MarkerType)
    (h : get_marker_type m = some mt) :
    (m = MARKER_REGISTERS_INT_ONLY ∧ mt = .registersIntOnly) ∨
    (m = MARKER_REGISTERS_INT_AND_FLOAT ∧ mt = .registersIntAndFloat) ∨
    (m = MARKER_EXCEPTION_CSR ∧ mt = .exceptionCSR) := by
  unfold get_marker_type at h
  by_cases h1 : m = MARKER_REGISTERS_INT_ONLY
  · rw [if_pos h1] at h; injection h with h; exact Or.inl ⟨h1, h.symm⟩
  · rw [if_neg h1] at h
    by_cases h2 : m = MARKER_REGISTERS_INT_AND_FLOAT
    · rw [if_pos h2] at h; injection h with h; exact Or.inr (Or.inl ⟨h2, h.symm⟩)
    · rw [if_neg h2] at h
      by_cases h3 : m = MARKER_EXCEPTION_CSR
      · rw [if_pos h3] at h; injection h with h; exact Or.inr (Or.inr ⟨h3, h.symm⟩)
      · rw [if_neg h3] at h; exact absurd h (by simp)

theorem try_parse_ascii_text_zero (l : List Nat) :
    try_parse_ascii_text (0 :: l) = none := by
  unfold try_parse_ascii_text ascii_scan
  rw [if_pos rfl]
  dsimp only
  rw [if_neg]
  simp

/-- The first iteration on a buffer that starts with a known marker whose
remaining payload is too short: only the marker item is emitted and the
position advances by eight. -/
theorem decode_step_marker_truncated (m : Nat) (mt : MarkerType) (suffix : List Nat)
    (h1 : get_marker_type m = some mt) (hm0 : m % 256 = 0)
    (hlt : m < 18446744073709551616)
    (h2 : suffix.length < required_payload_len mt) :
    decode_step (to_le_bytes m ++ suffix) 0 =
      (⟨[⟨.magicMarker m mt 0, 0, 8⟩], [], []⟩, 8) := by
  have hdrop0 : (to_le_bytes m ++ suffix).drop 0 = to_le_bytes m ++ suffix :=
    List.drop_zero _
  have hhead : to_le_bytes m ++ suffix = 0 :: ((to_le_bytes m).tail ++ suffix) := by
    unfold to_le_bytes
    rw [hm0]
    rfl
  have htp : try_parse_ascii_text (to_le_bytes m ++ suffix) = none := by
    rw [hhead]; exact try_parse_ascii_text_zero _
  have hlen : (to_le_bytes m ++ suffix).length = 8 + suffix.length := by
    rw [List.length_append, length_to_le_bytes]
  have hread : read_u64_le ((to_le_bytes m ++ suffix).take 8) = m := by
    rw [take_8_to_le_append]; exact read_u64_le_to_le_bytes m hlt
  unfold decode_step
  rw [hdrop0, htp]
  dsimp only
  rw [if_pos (by omega : 0 + 8 ≤ (to_le_bytes m ++ suffix).length)]
  rw [hread, h1]
  dsimp only
  have hdrop8 : (to_le_bytes m ++ suffix).drop (0 + 8) = suffix := by
    rw [Nat.zero_add]; exact drop_8_to_le_append m suffix
  cases mt with
  | registersIntOnly =>
    rw [hdrop8]
    rw [show parse_int_registers suffix = none from by
      unfold parse_int_registers
      rw [if_pos (by simpa [required_payload_len] using h2)]]
  | registersIntAndFloat =>
    rw [hdrop8]
    rw [show parse_int_and_float_registers suffix = none from by
      unfold parse_int_and_float_registers
      rw [if_pos (by simpa [required_payload_len] using h2)]]
  | exceptionCSR =>
    rw [hdrop8]
    rw [show parse_exception_csrs suffix = none from by
      unfold parse_exception_csrs
      rw [if_pos (by simpa [required_payload_len] using h2)]]
  | unknown v => rfl

end RiscvFuzz

/-- C4: a known marker immediately followed by fewer bytes than its
required payload length yields the MagicMarker item at offset 0, no
corresponding record item and no dump for it (every later item and every
dump carries a position of at least 8), and the decoder returns normally. -/
theorem c4_truncated_marker (m : Nat) (mt : RiscvFuzz.MarkerType)
    (suffix : List Nat) (et : RiscvFuzz.EmulatorType)
    (h1 : RiscvFuzz.get_marker_type m = some mt)
    (h2 : suffix.length < RiscvFuzz.required_payload_len mt) :
    (RiscvFuzz.parse_common_binary_data
        (RiscvFuzz.to_le_bytes m ++ suffix) et).output_items.head?
      = some (RiscvFuzz.OutputItem.magicMarker m mt 0) ∧
    (∀ it ∈ (RiscvFuzz.parse_common_binary_data
        (RiscvFuzz.to_le_bytes m ++ suffix) et).output_items.tail,
      ∀ p, RiscvFuzz.item_position it = some p → 8 ≤ p) ∧
    (∀ d ∈ (RiscvFuzz.parse_common_binary_data
        (RiscvFuzz.to_le_bytes m ++ suffix) et).register_dumps, 8 ≤ d.position) ∧
    (∀ e ∈ (RiscvFuzz.parse_common_binary_data
        (RiscvFuzz.to_le_bytes m ++ suffix) et).exception_dumps, 8 ≤ e.position) := by
  have hm0lt : m % 256 = 0 ∧ m < 18446744073709551616 := by
    rcases RiscvFuzz.get_marker_type_inv m mt h1 with ⟨hm, _⟩ | ⟨hm, _⟩ | ⟨hm, _⟩ <;>
      (subst hm; exact ⟨by decide, by decide⟩)
  have hstep := RiscvFuzz.decode_step_marker_truncated m mt suffix h1 hm0lt.1 hm0lt.2 h2
  have hlen : (RiscvFuzz.to_le_bytes m ++ suffix).length = 8 + suffix.length := by
    rw [List.length_append, RiscvFuzz.length_to_le_bytes]
  obtain ⟨k, hk⟩ : ∃ k, (RiscvFuzz.to_le_bytes m ++ suffix).length = k + 1 :=
    ⟨(RiscvFuzz.to_le_bytes m ++ suffix).length - 1, by omega⟩
  have hfuel : RiscvFuzz.decode_fuel (RiscvFuzz.to_le_bytes m ++ suffix)
      ((RiscvFuzz.to_le_bytes m ++ suffix).length) 0 =
      ⟨⟨RiscvFuzz.OutputItem.magicMarker m mt 0, 0, 8⟩ ::
          (RiscvFuzz.decode_fuel (RiscvFuzz.to_le_bytes m ++ suffix) k 8).items,
        (RiscvFuzz.decode_fuel (RiscvFuzz.to_le_bytes m ++ suffix) k 8).register_dumps,
        (RiscvFuzz.decode_fuel (RiscvFuzz.to_le_bytes m ++ suffix) k 8).exception_dumps⟩ := by
    rw [hk, RiscvFuzz.decode_fuel_succ_of_lt _ k 0 (by omega), hstep]
    rfl
  obtain ⟨_, hq, _, hrd, hed⟩ :=
    RiscvFuzz.decode_fuel_spec (RiscvFuzz.to_le_bytes m ++ suffix) k 8
      (by omega) (by omega)
  have hout : (RiscvFuzz.parse_common_binary_data
      (RiscvFuzz.to_le_bytes m ++ suffix) et).output_items =
      RiscvFuzz.OutputItem.magicMarker m mt 0 ::
        ((RiscvFuzz.decode_fuel (RiscvFuzz.to_le_bytes m ++ suffix) k 8).items.map
          (fun a => a.item)) := by
    show ((RiscvFuzz.decode_fuel (RiscvFuzz.to_le_bytes m ++ suffix)
        ((RiscvFuzz.to_le_bytes m ++ suffix).length) 0).items.map (fun a => a.item)) = _
    rw [hfuel]
    rfl
  refine ⟨?_, ?_, ?_, ?_⟩
  · rw [hout]; rfl
  · rw [hout]
    intro it hit p hp
    rw [List.tail_cons] at hit
    rw [List.mem_map] at hit
    obtain ⟨a, ha, haq⟩ := hit
    exact hq p (by
      rw [RiscvFuzz.mem_positions_map]
      exact ⟨a, ha, by rw [haq]; exact hp⟩)
  · intro d hd
    have : (RiscvFuzz.parse_common_binary_data
        (RiscvFuzz.to_le_bytes m ++ suffix) et).register_dumps =
        (RiscvFuzz.decode_fuel (RiscvFuzz.to_le_bytes m ++ suffix) k 8).register_dumps := by
      show (RiscvFuzz.decode_fuel (RiscvFuzz.to_le_bytes m ++ suffix)
          ((RiscvFuzz.to_le_bytes m ++ suffix).length) 0).register_dumps = _
      rw [hfuel]
    rw [this] at hd
    exact hrd d hd
  · intro e he
    have : (RiscvFuzz.parse_common_binary_data
        (RiscvFuzz.to_le_bytes m ++ suffix) et).exception_dumps =
        (RiscvFuzz.decode_fuel (RiscvFuzz.to_le_bytes m ++ suffix) k 8).exception_dumps := by
      show (RiscvFuzz.decode_fuel (RiscvFuzz.to_le_bytes m ++ suffix)
          ((RiscvFuzz.to_le_bytes m ++ suffix).length) 0).exception_dumps = _
      rw [hfuel]
    rw [this] at he
    exact hed e he

/-- C4 (witness): the exception marker followed by no payload bytes. -/
theorem c4_truncated_marker_witness :
    (RiscvFuzz.get_marker_type 0xBADC0DE1000 = some RiscvFuzz.MarkerType.exceptionCSR ∧
      ([] : List Nat).length <
        RiscvFuzz.required_payload_len RiscvFuzz.MarkerType.exceptionCSR) ∧
    (RiscvFuzz.parse_common_binary_data
        (RiscvFuzz.to_le_bytes 0xBADC0DE1000 ++ []) RiscvFuzz.EmulatorType.spike
      ).output_items.head?
      = some (RiscvFuzz.OutputItem.magicMarker 0xBADC0DE1000
          RiscvFuzz.MarkerType.exceptionCSR 0) :=
  ⟨⟨by decide, by decide⟩,
    (c4_truncated_marker 0xBADC0DE1000 RiscvFuzz.MarkerType.exceptionCSR []
      RiscvFuzz.EmulatorType.spike (by decide) (by decide)).1⟩

namespace RiscvFuzz

/-! ### Round-trip lemmas for claim C3 -/

theorem flatten_to_le_length (vs : List Nat) :
    ((vs.map to_le_bytes).flatten).length = 8 * vs.length := by
  induction vs with
  | nil => simp
  | cons v rest ih =>
    simp only [List.map_cons, List.flatten_cons, List.length_append,
      length_to_le_bytes, List.length_cons, ih]
    ring

theorem extract_field (vs : List Nat) :
    ∀ (k : Nat) (tail : List Nat), k < vs.length →
      (((vs.map to_le_bytes).flatten ++ tail).drop (8 * k)).take 8
        = to_le_bytes (vs.getD k 0) := by
  induction vs with
  | nil => intro k tail hk; simp at hk
  | cons v rest ih =>
    intro k tail hk
    cases k with
    | zero =>
      simp only [List.map_cons, List.flatten_cons, Nat.mul_zero, List.drop_zero,
        List.append_assoc, List.getD_cons_zero]
      exact take_8_to_le_append v _
    | succ k =>
      simp only [List.map_cons, List.flatten_cons, List.append_assoc,
        List.getD_cons_succ]
      rw [show 8 * (k + 1) = (to_le_bytes v).length + 8 * k from by
        rw [length_to_le_bytes]; ring]
      rw [List.drop_append]
      exact ih k tail (by simpa using hk)

theorem payload_read (vs : List Nat) (tail : List Nat) (k : Nat)
    (hk : k < vs.length) (hv : ∀ v ∈ vs, v < 18446744073709551616) :
    read_u64_le ((((vs.map to_le_bytes).flatten ++ tail).drop (8 * k)).take 8)
      = vs.getD k 0 := by
  rw [extract_field vs k tail hk]
  apply read_u64_le_to_le_bytes
  apply hv
  rw [List.getD_eq_getElem _ _ hk]
  exact List.getElem_mem hk

theorem map_range_getD (l : List Nat) :
    (List.range l.length).map (fun i => l.getD i 0) = l := by
  apply List.ext_getElem
  · simp
  · intro n h1 h2
    simp [List.getD_eq_getElem?_getD, List.getElem?_eq_getElem h2]

theorem getD_append_shift (A B : List Nat) (n j : Nat) (hA : A.length = n) :
    (A ++ B).getD (n + j) 0 = B.getD j 0 := by
  rw [List.getD_append_right _ _ _ _ (by omega)]
  congr 1
  omega

theorem try_parse_marker_none (m : Nat) (l : List Nat) (hm0 : m % 256 = 0) :
    try_parse_ascii_text (to_le_bytes m ++ l) = none := by
  have hhead : to_le_bytes m ++ l = 0 :: ((to_le_bytes m).tail ++ l) := by
    unfold to_le_bytes
    rw [hm0]
    rfl
  rw [hhead]
  exact try_parse_ascii_text_zero _

theorem decode_fuel_single (data : List Nat) (fuel : Nat) (hf : 0 < fuel)
    (h0 : 0 < data.length) (he : (decode_step data 0).2 = data.length) :
    decode_fuel data fuel 0 = (decode_step data 0).1 := by
  obtain ⟨f, rfl⟩ : ∃ f, fuel = f + 1 := ⟨fuel - 1, by omega⟩
  rw [decode_fuel_succ_of_lt data f 0 h0, he,
    decode_fuel_stop data f data.length (by omega)]
  simp only [List.append_nil]

end RiscvFuzz

namespace RiscvFuzz

/-! ### Payload parse lemmas (claim C3) -/

theorem parse_int_registers_payload (regs : List Nat) (c : CoreCSRs) (tail : List Nat)
    (hr : regs.length = 32)
    (hv : ∀ v ∈ regs, v < 18446744073709551616)
    (hcv : ∀ v ∈ core_csr_values c, v < 18446744073709551616) :
    parse_int_registers (((regs ++ core_csr_values c).map to_le_bytes).flatten ++ tail)
      = some (regs, c, 400) := by
  have hcl : (core_csr_values c).length = 18 := rfl
  have hvl : (regs ++ core_csr_values c).length = 50 := by
    rw [List.length_append, hr, hcl]
  have hvv : ∀ v ∈ regs ++ core_csr_values c, v < 18446744073709551616 := by
    intro v hvm
    rcases List.mem_append.mp hvm with hm | hm
    · exact hv v hm
    · exact hcv v hm
  have hlen : (((regs ++ core_csr_values c).map to_le_bytes).flatten ++ tail).length
      = 400 + tail.length := by
    rw [List.length_append, flatten_to_le_length, hvl]
  have hregs : (List.range 32).map (fun i => read_u64_le
      (((((regs ++ core_csr_values c).map to_le_bytes).flatten ++ tail).drop (8 * i)).take 8))
      = regs := by
    have hcg : ∀ i ∈ List.range 32, read_u64_le
        (((((regs ++ core_csr_values c).map to_le_bytes).flatten ++ tail).drop (8 * i)).take 8)
        = regs.getD i 0 := by
      intro i hi
      rw [List.mem_range] at hi
      rw [payload_read _ tail i (by omega) hvv]
      exact List.getD_append _ _ _ _ (by omega)
    rw [List.map_congr_left hcg]
    have hm := map_range_getD regs
    rw [hr] at hm
    exact hm
  have f0 : read_u64_le
      (((((regs ++ core_csr_values c).map to_le_bytes).flatten ++ tail).drop (8 * 32)).take 8)
      = c.mstatus := by
    rw [payload_read (regs ++ core_csr_values c) tail 32 (by omega) hvv]
    rw [show (32 : Nat) = 32 + 0 from rfl,
      getD_append_shift regs (core_csr_values c) 32 0 hr]
    rfl
  have f1 : read_u64_le
      (((((regs ++ core_csr_values c).map to_le_bytes).flatten ++ tail).drop (8 * 33)).take 8)
      = c.misa := by
    rw [payload_read (regs ++ core_csr_values c) tail 33 (by omega) hvv]
    rw [show (33 : Nat) = 32 + 1 from rfl,
      getD_append_shift regs (core_csr_values c) 32 1 hr]
    rfl
  have f2 : read_u64_le
      (((((regs ++ core_csr_values c).map to_le_bytes).flatten ++ tail).drop (8 * 34)).take 8)
      = c.medeleg := by
    rw [payload_read (regs ++ core_csr_values c) tail 34 (by omega) hvv]
    rw [show (34 : Nat) = 32 + 2 from rfl,
      getD_append_shift regs (core_csr_values c) 32 2 hr]
    rfl
  have f3 : read_u64_le
      (((((regs ++ core_csr_values c).map to_le_bytes).flatten ++ tail).drop (8 * 35)).take 8)
      = c.mideleg := by
    rw [payload_read (regs ++ core_csr_values c) tail 35 (by omega) hvv]
    rw [show (35 : Nat) = 32 + 3 from rfl,
      getD_append_shift regs (core_csr_values c) 32 3 hr]
    rfl
  have f4 : read_u64_le
      (((((regs ++ core_csr_values c).map to_le_bytes).flatten ++ tail).drop (8 * 36)).take 8)
      = c.mie := by
    rw [payload_read (regs ++ core_csr_values c) tail 36 (by omega) hvv]
    rw [show (36 : Nat) = 32 + 4 from rfl,
      getD_append_shift regs (core_csr_values c) 32 4 hr]
    rfl
  have f5 : read_u64_le
      (((((regs ++ core_csr_values c).map to_le_bytes).flatten ++ tail).drop (8 * 37)).take 8)
      = c.mtvec := by
    rw [payload_read (regs ++ core_csr_values c) tail 37 (by omega) hvv]
    rw [show (37 : Nat) = 32 + 5 from rfl,
      getD_append_shift regs (core_csr_values c) 32 5 hr]
    rfl
  have f6 : read_u64_le
      (((((regs ++ core_csr_values c).map to_le_bytes).flatten ++ tail).drop (8 * 38)).take 8)
      = c.mcounteren := by
    rw [payload_read (regs ++ core_csr_values c) tail 38 (by omega) hvv]
    rw [show (38 : Nat) = 32 + 6 from rfl,
      getD_append_shift regs (core_csr_values c) 32 6 hr]
    rfl
  have f7 : read_u64_le
      (((((regs ++ core_csr_values c).map to_le_bytes).flatten ++ tail).drop (8 * 39)).take 8)
      = c.mscratch := by
    rw [payload_read (regs ++ core_csr_values c) tail 39 (by omega) hvv]
    rw [show (39 : Nat) = 32 + 7 from rfl,
      getD_append_shift regs (core_csr_values c) 32 7 hr]
    rfl
  have f8 : read_u64_le
      (((((regs ++ core_csr_values c).map to_le_bytes).flatten ++ tail).drop (8 * 40)).take 8)
      = c.mepc := by
    rw [payload_read (regs ++ core_csr_values c) tail 40 (by omega) hvv]
    rw [show (40 : Nat) = 32 + 8 from rfl,
      getD_append_shift regs (core_csr_values c) 32 8 hr]
    rfl
  have f9 : read_u64_le
      (((((regs ++ core_csr_values c).map to_le_bytes).flatten ++ tail).drop (8 * 41)).take 8)
      = c.mcause := by
    rw [payload_read (regs ++ core_csr_values c) tail 41 (by omega) hvv]
    rw [show (41 : Nat) = 32 + 9 from rfl,
      getD_append_shift regs (core_csr_values c) 32 9 hr]
    rfl
  have f10 : read_u64_le
      (((((regs ++ core_csr_values c).map to_le_bytes).flatten ++ tail).drop (8 * 42)).take 8)
      = c.mtval := by
    rw [payload_read (regs ++ core_csr_values c) tail 42 (by omega) hvv]
    rw [show (42 : Nat) = 32 + 10 from rfl,
      getD_append_shift regs (core_csr_values c) 32 10 hr]
    rfl
  have f11 : read_u64_le
      (((((regs ++ core_csr_values c).map to_le_bytes).flatten ++ tail).drop (8 * 43)).take 8)
      = c.mip := by
    rw [payload_read (regs ++ core_csr_values c) tail 43 (by omega) hvv]
    rw [show (43 : Nat) = 32 + 11 from rfl,
      getD_append_shift regs (core_csr_values c) 32 11 hr]
    rfl
  have f12 : read_u64_le
      (((((regs ++ core_csr_values c).map to_le_bytes).flatten ++ tail).drop (8 * 44)).take 8)
      = c.mcycle := by
    rw [payload_read (regs ++ core_csr_values c) tail 44 (by omega) hvv]
    rw [show (44 : Nat) = 32 + 12 from rfl,
      getD_append_shift regs (core_csr_values c) 32 12 hr]
    rfl
  have f13 : read_u64_le
      (((((regs ++ core_csr_values c).map to_le_bytes).flatten ++ tail).drop (8 * 45)).take 8)
      = c.minstret := by
    rw [payload_read (regs ++ core_csr_values c) tail 45 (by omega) hvv]
    rw [show (45 : Nat) = 32 + 13 from rfl,
      getD_append_shift regs (core_csr_values c) 32 13 hr]
    rfl
  have f14 : read_u64_le
      (((((regs ++ core_csr_values c).map to_le_bytes).flatten ++ tail).drop (8 * 46)).take 8)
      = c.mvendorid := by
    rw [payload_read (regs ++ core_csr_values c) tail 46 (by omega) hvv]
    rw [show (46 : Nat) = 32 + 14 from rfl,
      getD_append_shift regs (core_csr_values c) 32 14 hr]
    rfl
  have f15 : read_u64_le
      (((((regs ++ core_csr_values c).map to_le_bytes).flatten ++ tail).drop (8 * 47)).take 8)
      = c.marchid := by
    rw [payload_read (regs ++ core_csr_values c) tail 47 (by omega) hvv]
    rw [show (47 : Nat) = 32 + 15 from rfl,
      getD_append_shift regs (core_csr_values c) 32 15 hr]
    rfl
  have f16 : read_u64_le
      (((((regs ++ core_csr_values c).map to_le_bytes).flatten ++ tail).drop (8 * 48)).take 8)
      = c.mimpid := by
    rw [payload_read (regs ++ core_csr_values c) tail 48 (by omega) hvv]
    rw [show (48 : Nat) = 32 + 16 from rfl,
      getD_append_shift regs (core_csr_values c) 32 16 hr]
    rfl
  have f17 : read_u64_le
      (((((regs ++ core_csr_values c).map to_le_bytes).flatten ++ tail).drop (8 * 49)).take 8)
      = c.mhartid := by
    rw [payload_read (regs ++ core_csr_values c) tail 49 (by omega) hvv]
    rw [show (49 : Nat) = 32 + 17 from rfl,
      getD_append_shift regs (core_csr_values c) 32 17 hr]
    rfl
  unfold parse_int_registers
  rw [if_neg (by omega)]
  rw [hregs]
  rw [show (256 : Nat) = 8 * 32 from rfl, f0]
  rw [show (264 : Nat) = 8 * 33 from rfl, f1]
  rw [show (272 : Nat) = 8 * 34 from rfl, f2]
  rw [show (280 : Nat) = 8 * 35 from rfl, f3]
  rw [show (288 : Nat) = 8 * 36 from rfl, f4]
  rw [show (296 : Nat) = 8 * 37 from rfl, f5]
  rw [show (304 : Nat) = 8 * 38 from rfl, f6]
  rw [show (312 : Nat) = 8 * 39 from rfl, f7]
  rw [show (320 : Nat) = 8 * 40 from rfl, f8]
  rw [show (328 : Nat) = 8 * 41 from rfl, f9]
  rw [show (336 : Nat) = 8 * 42 from rfl, f10]
  rw [show (344 : Nat) = 8 * 43 from rfl, f11]
  rw [show (352 : Nat) = 8 * 44 from rfl, f12]
  rw [show (360 : Nat) = 8 * 45 from rfl, f13]
  rw [show (368 : Nat) = 8 * 46 from rfl, f14]
  rw [show (376 : Nat) = 8 * 47 from rfl, f15]
  rw [show (384 : Nat) = 8 * 48 from rfl, f16]
  rw [show (392 : Nat) = 8 * 49 from rfl, f17]

end RiscvFuzz

namespace RiscvFuzz

theorem parse_int_and_float_registers_payload (regs : List Nat) (c : CoreCSRs)
    (fcsr : Nat) (fregs : List Nat) (tail : List Nat)
    (hr : regs.length = 32) (hfr : fregs.length = 32)
    (hv : ∀ v ∈ regs, v < 18446744073709551616)
    (hcv : ∀ v ∈ core_csr_values c, v < 18446744073709551616)
    (hfv : fcsr < 18446744073709551616)
    (hfrv : ∀ v ∈ fregs, v < 18446744073709551616) :
    parse_int_and_float_registers ((((regs ++ core_csr_values c ++ [fcsr] ++ fregs).map to_le_bytes).flatten ++ tail))
      = some (regs, c, fregs, fcsr, 664) := by
  have hcl : (core_csr_values c).length = 18 := rfl
  have hl0 : (regs ++ core_csr_values c).length = 50 := by
    rw [List.length_append, hr, hcl]
  have hl1 : (regs ++ core_csr_values c ++ [fcsr]).length = 51 := by
    rw [List.length_append, hl0]; rfl
  have hvl : (regs ++ core_csr_values c ++ [fcsr] ++ fregs).length = 83 := by
    rw [List.length_append, hl1, hfr]
  have hvv : ∀ v ∈ regs ++ core_csr_values c ++ [fcsr] ++ fregs, v < 18446744073709551616 := by
    intro v hvm
    rcases List.mem_append.mp hvm with hm | hm
    · rcases List.mem_append.mp hm with hm2 | hm2
      · rcases List.mem_append.mp hm2 with hm3 | hm3
        · exact hv v hm3
        · exact hcv v hm3
      · rw [List.mem_singleton] at hm2; subst hm2; exact hfv
    · exact hfrv v hm
  have hlen : (((regs ++ core_csr_values c ++ [fcsr] ++ fregs).map to_le_bytes).flatten ++ tail).length = 664 + tail.length := by
    rw [List.length_append, flatten_to_le_length, hvl]
  have hregs : (List.range 32).map (fun i => read_u64_le
      (((((regs ++ core_csr_values c ++ [fcsr] ++ fregs).map to_le_bytes).flatten ++ tail).drop (8 * i)).take 8)) = regs := by
    have hcg : ∀ i ∈ List.range 32, read_u64_le
        (((((regs ++ core_csr_values c ++ [fcsr] ++ fregs).map to_le_bytes).flatten ++ tail).drop (8 * i)).take 8) = regs.getD i 0 := by
      intro i hi
      rw [List.mem_range] at hi
      rw [payload_read _ tail i (by omega) hvv]
      rw [List.getD_append _ _ _ _ (by omega)]
      rw [List.getD_append _ _ _ _ (by omega)]
      exact List.getD_append _ _ _ _ (by omega)
    rw [List.map_congr_left hcg]
    have hm := map_range_getD regs
    rw [hr] at hm
    exact hm
  have hfregs : (List.range 32).map (fun i => read_u64_le
      (((((regs ++ core_csr_values c ++ [fcsr] ++ fregs).map to_le_bytes).flatten ++ tail).drop (408 + 8 * i)).take 8)) = fregs := by
    have hcg : ∀ i ∈ List.range 32, read_u64_le
        (((((regs ++ core_csr_values c ++ [fcsr] ++ fregs).map to_le_bytes).flatten ++ tail).drop (408 + 8 * i)).take 8) = fregs.getD i 0 := by
      intro i hi
      rw [List.mem_range] at hi
      rw [show 408 + 8 * i = 8 * (51 + i) from by ring]
      rw [payload_read _ tail (51 + i) (by omega) hvv]
      exact getD_append_shift (regs ++ core_csr_values c ++ [fcsr]) fregs 51 i hl1
    rw [List.map_congr_left hcg]
    have hm := map_range_getD fregs
    rw [hfr] at hm
    exact hm
  have ffcsr : read_u64_le (((((regs ++ core_csr_values c ++ [fcsr] ++ fregs).map to_le_bytes).flatten ++ tail).drop (8 * 50)).take 8) = fcsr := by
    rw [payload_read _ tail 50 (by omega) hvv]
    rw [List.getD_append _ _ _ _ (by omega)]
    rw [show (50 : Nat) = 50 + 0 from rfl,
      getD_append_shift (regs ++ core_csr_values c) [fcsr] 50 0 hl0]
    rfl
  have f0 : read_u64_le
      (((((regs ++ core_csr_values c ++ [fcsr] ++ fregs).map to_le_bytes).flatten ++ tail).drop (8 * 32)).take 8) = c.mstatus := by
    rw [payload_read _ tail 32 (by omega) hvv]
    rw [List.getD_append _ _ _ _ (by omega)]
    rw [List.getD_append _ _ _ _ (by omega)]
    rw [show (32 : Nat) = 32 + 0 from rfl,
      getD_append_shift regs (core_csr_values c) 32 0 hr]
    rfl
  have f1 : read_u64_le
      (((((regs ++ core_csr_values c ++ [fcsr] ++ fregs).map to_le_bytes).flatten ++ tail).drop (8 * 33)).take 8) = c.misa := by
    rw [payload_read _ tail 33 (by omega) hvv]
    rw [List.getD_append _ _ _ _ (by omega)]
    rw [List.getD_append _ _ _ _ (by omega)]
    rw [show (33 : Nat) = 32 + 1 from rfl,
      getD_append_shift regs (core_csr_values c) 32 1 hr]
    rfl
  have f2 : read_u64_le
      (((((regs ++ core_csr_values c ++ [fcsr] ++ fregs).map to_le_bytes).flatten ++ tail).drop (8 * 34)).take 8) = c.medeleg := by
    rw [payload_read _ tail 34 (by omega) hvv]
    rw [List.getD_append _ _ _ _ (by omega)]
    rw [List.getD_append _ _ _ _ (by omega)]
    rw [show (34 : Nat) = 32 + 2 from rfl,
      getD_append_shift regs (core_csr_values c) 32 2 hr]
    rfl
  have f3 : read_u64_le
      (((((regs ++ core_csr_values c ++ [fcsr] ++ fregs).map to_le_bytes).flatten ++ tail).drop (8 * 35)).take 8) = c.mideleg := by
    rw [payload_read _ tail 35 (by omega) hvv]
    rw [List.getD_append _ _ _ _ (by omega)]
    rw [List.getD_append _ _ _ _ (by omega)]
    rw [show (35 : Nat) = 32 + 3 from rfl,
      getD_append_shift regs (core_csr_values c) 32 3 hr]
    rfl
  have f4 : read_u64_le
      (((((regs ++ core_csr_values c ++ [fcsr] ++ fregs).map to_le_bytes).flatten ++ tail).drop (8 * 36)).take 8) = c.mie := by
    rw [payload_read _ tail 36 (by omega) hvv]
    rw [List.getD_append _ _ _ _ (by omega)]
    rw [List.getD_append _ _ _ _ (by omega)]
    rw [show (36 : Nat) = 32 + 4 from rfl,
      getD_append_shift regs (core_csr_values c) 32 4 hr]
    rfl
  have f5 : read_u64_le
      (((((regs ++ core_csr_values c ++ [fcsr] ++ fregs).map to_le_bytes).flatten ++ tail).drop (8 * 37)).take 8) = c.mtvec := by
    rw [payload_read _ tail 37 (by omega) hvv]
    rw [List.getD_append _ _ _ _ (by omega)]
    rw [List.getD_append _ _ _ _ (by omega)]
    rw [show (37 : Nat) = 32 + 5 from rfl,
      getD_append_shift regs (core_csr_values c) 32 5 hr]
    rfl
  have f6 : read_u64_le
      (((((regs ++ core_csr_values c ++ [fcsr] ++ fregs).map to_le_bytes).flatten ++ tail).drop (8 * 38)).take 8) = c.mcounteren := by
    rw [payload_read _ tail 38 (by omega) hvv]
    rw [List.getD_append _ _ _ _ (by omega)]
    rw [List.getD_append _ _ _ _ (by omega)]
    rw [show (38 : Nat) = 32 + 6 from rfl,
      getD_append_shift regs (core_csr_values c) 32 6 hr]
    rfl
  have f7 : read_u64_le
      (((((regs ++ core_csr_values c ++ [fcsr] ++ fregs).map to_le_bytes).flatten ++ tail).drop (8 * 39)).take 8) = c.mscratch := by
    rw [payload_read _ tail 39 (by omega) hvv]
    rw [List.getD_append _ _ _ _ (by omega)]
    rw [List.getD_append _ _ _ _ (by omega)]
    rw [show (39 : Nat) = 32 + 7 from rfl,
      getD_append_shift regs (core_csr_values c) 32 7 hr]
    rfl
  have f8 : read_u64_le
      (((((regs ++ core_csr_values c ++ [fcsr] ++ fregs).map to_le_bytes).flatten ++ tail).drop (8 * 40)).take 8) = c.mepc := by
    rw [payload_read _ tail 40 (by omega) hvv]
    rw [List.getD_append _ _ _ _ (by omega)]
    rw [List.getD_append _ _ _ _ (by omega)]
    rw [show (40 : Nat) = 32 + 8 from rfl,
      getD_append_shift regs (core_csr_values c) 32 8 hr]
    rfl
  have f9 : read_u64_le
      (((((regs ++ core_csr_values c ++ [fcsr] ++ fregs).map to_le_bytes).flatten ++ tail).drop (8 * 41)).take 8) = c.mcause := by
    rw [payload_read _ tail 41 (by omega) hvv]
    rw [List.getD_append _ _ _ _ (by omega)]
    rw [List.getD_append _ _ _ _ (by omega)]
    rw [show (41 : Nat) = 32 + 9 from rfl,
      getD_append_shift regs (core_csr_values c) 32 9 hr]
    rfl
  have f10 : read_u64_le
      (((((regs ++ core_csr_values c ++ [fcsr] ++ fregs).map to_le_bytes).flatten ++ tail).drop (8 * 42)).take 8) = c.mtval := by
    rw [payload_read _ tail 42 (by omega) hvv]
    rw [List.getD_append _ _ _ _ (by omega)]
    rw [List.getD_append _ _ _ _ (by omega)]
    rw [show (42 : Nat) = 32 + 10 from rfl,
      getD_append_shift regs (core_csr_values c) 32 10 hr]
    rfl
  have f11 : read_u64_le
      (((((regs ++ core_csr_values c ++ [fcsr] ++ fregs).map to_le_bytes).flatten ++ tail).drop (8 * 43)).take 8) = c.mip := by
    rw [payload_read _ tail 43 (by omega) hvv]
    rw [List.getD_append _ _ _ _ (by omega)]
    rw [List.getD_append _ _ _ _ (by omega)]
    rw [show (43 : Nat) = 32 + 11 from rfl,
      getD_append_shift regs (core_csr_values c) 32 11 hr]
    rfl
  have f12 : read_u64_le
      (((((regs ++ core_csr_values c ++ [fcsr] ++ fregs).map to_le_bytes).flatten ++ tail).drop (8 * 44)).take 8) = c.mcycle := by
    rw [payload_read _ tail 44 (by omega) hvv]
    rw [List.getD_append _ _ _ _ (by omega)]
    rw [List.getD_append _ _ _ _ (by omega)]
    rw [show (44 : Nat) = 32 + 12 from rfl,
      getD_append_shift regs (core_csr_values c) 32 12 hr]
    rfl
  have f13 : read_u64_le
      (((((regs ++ core_csr_values c ++ [fcsr] ++ fregs).map to_le_bytes).flatten ++ tail).drop (8 * 45)).take 8) = c.minstret := by
    rw [payload_read _ tail 45 (by omega) hvv]
    rw [List.getD_append _ _ _ _ (by omega)]
    rw [List.getD_append _ _ _ _ (by omega)]
    rw [show (45 : Nat) = 32 + 13 from rfl,
      getD_append_shift regs (core_csr_values c) 32 13 hr]
    rfl
  have f14 : read_u64_le
      (((((regs ++ core_csr_values c ++ [fcsr] ++ fregs).map to_le_bytes).flatten ++ tail).drop (8 * 46)).take 8) = c.mvendorid := by
    rw [payload_read _ tail 46 (by omega) hvv]
    rw [List.getD_append _ _ _ _ (by omega)]
    rw [List.getD_append _ _ _ _ (by omega)]
    rw [show (46 : Nat) = 32 + 14 from rfl,
      getD_append_shift regs (core_csr_values c) 32 14 hr]
    rfl
  have f15 : read_u64_le
      (((((regs ++ core_csr_values c ++ [fcsr] ++ fregs).map to_le_bytes).flatten ++ tail).drop (8 * 47)).take 8) = c.marchid := by
    rw [payload_read _ tail 47 (by omega) hvv]
    rw [List.getD_append _ _ _ _ (by omega)]
    rw [List.getD_append _ _ _ _ (by omega)]
    rw [show (47 : Nat) = 32 + 15 from rfl,
      getD_append_shift regs (core_csr_values c) 32 15 hr]
    rfl
  have f16 : read_u64_le
      (((((regs ++ core_csr_values c ++ [fcsr] ++ fregs).map to_le_bytes).flatten ++ tail).drop (8 * 48)).take 8) = c.mimpid := by
    rw [payload_read _ tail 48 (by omega) hvv]
    rw [List.getD_append _ _ _ _ (by omega)]
    rw [List.getD_append _ _ _ _ (by omega)]
    rw [show (48 : Nat) = 32 + 16 from rfl,
      getD_append_shift regs (core_csr_values c) 32 16 hr]
    rfl
  have f17 : read_u64_le
      (((((regs ++ core_csr_values c ++ [fcsr] ++ fregs).map to_le_bytes).flatten ++ tail).drop (8 * 49)).take 8) = c.mhartid := by
    rw [payload_read _ tail 49 (by omega) hvv]
    rw [List.getD_append _ _ _ _ (by omega)]
    rw [List.getD_append _ _ _ _ (by omega)]
    rw [show (49 : Nat) = 32 + 17 from rfl,
      getD_append_shift regs (core_csr_values c) 32 17 hr]
    rfl
  unfold parse_int_and_float_registers
  rw [if_neg (by omega)]
  rw [hregs]
  rw [show (256 : Nat) = 8 * 32 from rfl, f0]
  rw [show (264 : Nat) = 8 * 33 from rfl, f1]
  rw [show (272 : Nat) = 8 * 34 from rfl, f2]
  rw [show (280 : Nat) = 8 * 35 from rfl, f3]
  rw [show (288 : Nat) = 8 * 36 from rfl, f4]
  rw [show (296 : Nat) = 8 * 37 from rfl, f5]
  rw [show (304 : Nat) = 8 * 38 from rfl, f6]
  rw [show (312 : Nat) = 8 * 39 from rfl, f7]
  rw [show (320 : Nat) = 8 * 40 from rfl, f8]
  rw [show (328 : Nat) = 8 * 41 from rfl, f9]
  rw [show (336 : Nat) = 8 * 42 from rfl, f10]
  rw [show (344 : Nat) = 8 * 43 from rfl, f11]
  rw [show (352 : Nat) = 8 * 44 from rfl, f12]
  rw [show (360 : Nat) = 8 * 45 from rfl, f13]
  rw [show (368 : Nat) = 8 * 46 from rfl, f14]
  rw [show (376 : Nat) = 8 * 47 from rfl, f15]
  rw [show (384 : Nat) = 8 * 48 from rfl, f16]
  rw [show (392 : Nat) = 8 * 49 from rfl, f17]
  rw [show (400 : Nat) = 8 * 50 from rfl, ffcsr]
  rw [hfregs]

theorem parse_exception_csrs_payload (e : ExceptionCSRs) (tail : List Nat)
    (he : ∀ v ∈ exception_csr_values e, v < 18446744073709551616) :
    parse_exception_csrs (((exception_csr_values e).map to_le_bytes).flatten ++ tail)
      = some (e, 72) := by
  have hvl : (exception_csr_values e).length = 9 := rfl
  have hlen : (((exception_csr_values e).map to_le_bytes).flatten ++ tail).length
      = 72 + tail.length := by
    rw [List.length_append, flatten_to_le_length, hvl]
  have f0 : read_u64_le
      ((((((exception_csr_values e).map to_le_bytes).flatten ++ tail)).drop 0).take 8)
      = e.mstatus := by
    have h := payload_read (exception_csr_values e) tail 0 (by omega) he
    norm_num at h
    rw [List.drop_zero, h]
    rfl
  have f1 : read_u64_le
      ((((((exception_csr_values e).map to_le_bytes).flatten ++ tail)).drop 8).take 8)
      = e.mcause := by
    have h := payload_read (exception_csr_values e) tail 1 (by omega) he
    norm_num at h
    rw [h]
    rfl
  have f2 : read_u64_le
      ((((((exception_csr_values e).map to_le_bytes).flatten ++ tail)).drop 16).take 8)
      = e.mepc := by
    have h := payload_read (exception_csr_values e) tail 2 (by omega) he
    norm_num at h
    rw [h]
    rfl
  have f3 : read_u64_le
      ((((((exception_csr_values e).map to_le_bytes).flatten ++ tail)).drop 24).take 8)
      = e.mtval := by
    have h := payload_read (exception_csr_values e) tail 3 (by omega) he
    norm_num at h
    rw [h]
    rfl
  have f4 : read_u64_le
      ((((((exception_csr_values e).map to_le_bytes).flatten ++ tail)).drop 32).take 8)
      = e.mie := by
    have h := payload_read (exception_csr_values e) tail 4 (by omega) he
    norm_num at h
    rw [h]
    rfl
  have f5 : read_u64_le
      ((((((exception_csr_values e).map to_le_bytes).flatten ++ tail)).drop 40).take 8)
      = e.mip := by
    have h := payload_read (exception_csr_values e) tail 5 (by omega) he
    norm_num at h
    rw [h]
    rfl
  have f6 : read_u64_le
      ((((((exception_csr_values e).map to_le_bytes).flatten ++ tail)).drop 48).take 8)
      = e.mtvec := by
    have h := payload_read (exception_csr_values e) tail 6 (by omega) he
    norm_num at h
    rw [h]
    rfl
  have f7 : read_u64_le
      ((((((exception_csr_values e).map to_le_bytes).flatten ++ tail)).drop 56).take 8)
      = e.mscratch := by
    have h := payload_read (exception_csr_values e) tail 7 (by omega) he
    norm_num at h
    rw [h]
    rfl
  have f8 : read_u64_le
      ((((((exception_csr_values e).map to_le_bytes).flatten ++ tail)).drop 64).take 8)
      = e.mhartid := by
    have h := payload_read (exception_csr_values e) tail 8 (by omega) he
    norm_num at h
    rw [h]
    rfl
  unfold parse_exception_csrs
  rw [if_neg (by omega)]
  rw [f0]
  rw [f1]
  rw [f2]
  rw [f3]
  rw [f4]
  rw [f5]
  rw [f6]
  rw [f7]
  rw [f8]

end RiscvFuzz

namespace RiscvFuzz

/-! ### Single-record decoding (claim C3) -/

theorem encode_int_only_length (regs : List Nat) (c : CoreCSRs)
    (hr : regs.length = 32) : (encode_int_only_record regs c).length = 408 := by
  unfold encode_int_only_record
  rw [List.length_append, length_to_le_bytes, flatten_to_le_length,
    List.length_append, hr]
  rfl

/-- One scan iteration at the start of a buffer that begins with the
IntOnly marker (kept symbolic so reduction stays lazy) followed by a
payload the register parser accepts. -/
theorem decode_step_record_int_only (m : Nat) (payload : List Nat)
    (hm : get_marker_type m = some MarkerType.registersIntOnly)
    (hm0 : m % 256 = 0) (hlt : m < 18446744073709551616)
    (regs : List Nat) (core : CoreCSRs) (consumed : Nat)
    (hp : parse_int_registers payload = some (regs, core, consumed))
    (h8 : 0 + 8 ≤ (to_le_bytes m ++ payload).length) :
    decode_step (to_le_bytes m ++ payload) 0 =
      (⟨[⟨.magicMarker m .registersIntOnly 0, 0, 8⟩,
          ⟨.registerData .registersIntOnly (regs ++ core_csr_values core) 0,
            0 + 8, consumed⟩],
        [⟨.registersIntOnly, regs, core, none, none, 0⟩], []⟩,
        0 + 8 + consumed) := by
  have hdrop0 : (to_le_bytes m ++ payload).drop 0 = to_le_bytes m ++ payload :=
    List.drop_zero _
  have htp := try_parse_marker_none m payload hm0
  have hread : read_u64_le ((to_le_bytes m ++ payload).take 8) = m := by
    rw [take_8_to_le_append]; exact read_u64_le_to_le_bytes m hlt
  have hdrop8 : (to_le_bytes m ++ payload).drop (0 + 8) = payload := by
    rw [Nat.zero_add]; exact drop_8_to_le_append m payload
  unfold decode_step
  rw [hdrop0, htp]
  dsimp only
  rw [if_pos h8]
  rw [hread, hm]
  dsimp only
  rw [hdrop8, hp]

theorem decode_step_int_only (regs : List Nat) (c : CoreCSRs)
    (hr : regs.length = 32)
    (hv : ∀ v ∈ regs, v < 18446744073709551616)
    (hcv : ∀ v ∈ core_csr_values c, v < 18446744073709551616) :
    decode_step (encode_int_only_record regs c) 0 =
      (⟨[⟨.magicMarker MARKER_REGISTERS_INT_ONLY .registersIntOnly 0, 0, 8⟩,
          ⟨.registerData .registersIntOnly (regs ++ core_csr_values c) 0, 8, 400⟩],
        [⟨.registersIntOnly, regs, c, none, none, 0⟩], []⟩, 408) := by
  have hpl := parse_int_registers_payload regs c [] hr hv hcv
  rw [List.append_nil] at hpl
  exact decode_step_record_int_only MARKER_REGISTERS_INT_ONLY _
    (by decide) (by decide) (by decide) regs c 400 hpl
    (by rw [List.length_append, length_to_le_bytes]; omega)

theorem encode_int_and_float_length (regs : List Nat) (c : CoreCSRs)
    (fcsr : Nat) (fregs : List Nat) (hr : regs.length = 32)
    (hfr : fregs.length = 32) :
    (encode_int_and_float_record regs c fcsr fregs).length = 672 := by
  unfold encode_int_and_float_record
  rw [List.length_append, length_to_le_bytes, flatten_to_le_length,
    List.length_append, List.length_append, List.length_append, hr, hfr]
  rfl

/-- One scan iteration for a symbolic IntAndFloat marker with an accepted
payload. -/
theorem decode_step_record_int_and_float (m : Nat) (payload : List Nat)
    (hm : get_marker_type m = some MarkerType.registersIntAndFloat)
    (hm0 : m % 256 = 0) (hlt : m < 18446744073709551616)
    (regs : List Nat) (core : CoreCSRs) (fregs : List Nat) (fcsr : Nat)
    (consumed : Nat)
    (hp : parse_int_and_float_registers payload = some (regs, core, fregs, fcsr, consumed))
    (h8 : 0 + 8 ≤ (to_le_bytes m ++ payload).length) :
    decode_step (to_le_bytes m ++ payload) 0 =
      (⟨[⟨.magicMarker m .registersIntAndFloat 0, 0, 8⟩,
          ⟨.registerData .registersIntAndFloat
            (regs ++ core_csr_values core ++ [fcsr] ++ fregs) 0, 0 + 8, consumed⟩],
        [⟨.registersIntAndFloat, regs, core, some fregs, some fcsr, 0⟩], []⟩,
        0 + 8 + consumed) := by
  have hdrop0 : (to_le_bytes m ++ payload).drop 0 = to_le_bytes m ++ payload :=
    List.drop_zero _
  have htp := try_parse_marker_none m payload hm0
  have hread : read_u64_le ((to_le_bytes m ++ payload).take 8) = m := by
    rw [take_8_to_le_append]; exact read_u64_le_to_le_bytes m hlt
  have hdrop8 : (to_le_bytes m ++ payload).drop (0 + 8) = payload := by
    rw [Nat.zero_add]; exact drop_8_to_le_append m payload
  unfold decode_step
  rw [hdrop0, htp]
  dsimp only
  rw [if_pos h8]
  rw [hread, hm]
  dsimp only
  rw [hdrop8, hp]

theorem decode_step_int_and_float (regs : List Nat) (c : CoreCSRs)
    (fcsr : Nat) (fregs : List Nat)
    (hr : regs.length = 32) (hfr : fregs.length = 32)
    (hv : ∀ v ∈ regs, v < 18446744073709551616)
    (hcv : ∀ v ∈ core_csr_values c, v < 18446744073709551616)
    (hfv : fcsr < 18446744073709551616)
    (hfrv : ∀ v ∈ fregs, v < 18446744073709551616) :
    decode_step (encode_int_and_float_record regs c fcsr fregs) 0 =
      (⟨[⟨.magicMarker MARKER_REGISTERS_INT_AND_FLOAT .registersIntAndFloat 0, 0, 8⟩,
          ⟨.registerData .registersIntAndFloat
            (regs ++ core_csr_values c ++ [fcsr] ++ fregs) 0, 8, 664⟩],
        [⟨.registersIntAndFloat, regs, c, some fregs, some fcsr, 0⟩], []⟩, 672) := by
  have hpl := parse_int_and_float_registers_payload regs c fcsr fregs [] hr hfr hv hcv hfv hfrv
  rw [List.append_nil] at hpl
  exact decode_step_record_int_and_float MARKER_REGISTERS_INT_AND_FLOAT _
    (by decide) (by decide) (by decide) regs c fregs fcsr 664 hpl
    (by rw [List.length_append, length_to_le_bytes]; omega)

theorem encode_exception_length (e : ExceptionCSRs) :
    (encode_exception_record e).length = 80 := by
  unfold encode_exception_record
  rw [List.length_append, length_to_le_bytes, flatten_to_le_length]
  rfl

/-- One scan iteration for a symbolic ExceptionCSR marker with an accepted
payload. -/
theorem decode_step_record_exception (m : Nat) (payload : List Nat)
    (hm : get_marker_type m = some MarkerType.exceptionCSR)
    (hm0 : m % 256 = 0) (hlt : m < 18446744073709551616)
    (csrs : ExceptionCSRs) (consumed : Nat)
    (hp : parse_exception_csrs payload = some (csrs, consumed))
    (h8 : 0 + 8 ≤ (to_le_bytes m ++ payload).length) :
    decode_step (to_le_bytes m ++ payload) 0 =
      (⟨[⟨.magicMarker m .exceptionCSR 0, 0, 8⟩,
          ⟨.exceptionData csrs 0, 0 + 8, consumed⟩],
        [], [⟨csrs, 0, none⟩]⟩, 0 + 8 + consumed) := by
  have hdrop0 : (to_le_bytes m ++ payload).drop 0 = to_le_bytes m ++ payload :=
    List.drop_zero _
  have htp := try_parse_marker_none m payload hm0
  have hread : read_u64_le ((to_le_bytes m ++ payload).take 8) = m := by
    rw [take_8_to_le_append]; exact read_u64_le_to_le_bytes m hlt
  have hdrop8 : (to_le_bytes m ++ payload).drop (0 + 8) = payload := by
    rw [Nat.zero_add]; exact drop_8_to_le_append m payload
  unfold decode_step
  rw [hdrop0, htp]
  dsimp only
  rw [if_pos h8]
  rw [hread, hm]
  dsimp only
  rw [hdrop8, hp]

theorem decode_step_exception (e : ExceptionCSRs)
    (he : ∀ v ∈ exception_csr_values e, v < 18446744073709551616) :
    decode_step (encode_exception_record e) 0 =
      (⟨[⟨.magicMarker MARKER_EXCEPTION_CSR .exceptionCSR 0, 0, 8⟩,
          ⟨.exceptionData e 0, 8, 72⟩],
        [], [⟨e, 0, none⟩]⟩, 80) := by
  have hpl := parse_exception_csrs_payload e [] he
  rw [List.append_nil] at hpl
  exact decode_step_record_exception MARKER_EXCEPTION_CSR _
    (by decide) (by decide) (by decide) e 72 hpl
    (by rw [List.length_append, length_to_le_bytes]; omega)

end RiscvFuzz

/-- C3: encoding a record per the section-6 layout (8-byte little-endian
marker, then the fixed-offset payload: 400 bytes IntOnly, 664 IntAndFloat,
72 ExceptionCSR) and decoding yields exactly one dump whose every field
equals the encoded value, for all three record kinds. -/
theorem c3_record_roundtrip :
    (∀ (regs : List Nat) (c : RiscvFuzz.CoreCSRs) (et : RiscvFuzz.EmulatorType),
      regs.length = 32 →
      (∀ v ∈ regs, v < 18446744073709551616) →
      (∀ v ∈ RiscvFuzz.core_csr_values c, v < 18446744073709551616) →
      (RiscvFuzz.parse_common_binary_data
          (RiscvFuzz.encode_int_only_record regs c) et).register_dumps
        = [⟨RiscvFuzz.MarkerType.registersIntOnly, regs, c, none, none, 0⟩] ∧
      (RiscvFuzz.parse_common_binary_data
          (RiscvFuzz.encode_int_only_record regs c) et).exception_dumps = []) ∧
    (∀ (regs : List Nat) (c : RiscvFuzz.CoreCSRs) (fcsr : Nat) (fregs : List Nat)
        (et : RiscvFuzz.EmulatorType),
      regs.length = 32 → fregs.length = 32 →
      (∀ v ∈ regs, v < 18446744073709551616) →
      (∀ v ∈ RiscvFuzz.core_csr_values c, v < 18446744073709551616) →
      fcsr < 18446744073709551616 →
      (∀ v ∈ fregs, v < 18446744073709551616) →
      (RiscvFuzz.parse_common_binary_data
          (RiscvFuzz.encode_int_and_float_record regs c fcsr fregs) et).register_dumps
        = [⟨RiscvFuzz.MarkerType.registersIntAndFloat, regs, c, some fregs, some fcsr, 0⟩] ∧
      (RiscvFuzz.parse_common_binary_data
          (RiscvFuzz.encode_int_and_float_record regs c fcsr fregs) et).exception_dumps
        = []) ∧
    (∀ (e : RiscvFuzz.ExceptionCSRs) (et : RiscvFuzz.EmulatorType),
      (∀ v ∈ RiscvFuzz.exception_csr_values e, v < 18446744073709551616) →
      (RiscvFuzz.parse_common_binary_data
          (RiscvFuzz.encode_exception_record e) et).exception_dumps
        = [⟨e, 0, none⟩] ∧
      (RiscvFuzz.parse_common_binary_data
          (RiscvFuzz.encode_exception_record e) et).register_dumps = []) := by
  refine ⟨?_, ?_, ?_⟩
  · intro regs c et hr hv hcv
    have hstep := RiscvFuzz.decode_step_int_only regs c hr hv hcv
    have hlen := RiscvFuzz.encode_int_only_length regs c hr
    have hsingle := RiscvFuzz.decode_fuel_single (RiscvFuzz.encode_int_only_record regs c)
      (RiscvFuzz.encode_int_only_record regs c).length
      (by omega) (by omega) (by rw [hstep]; exact hlen.symm)
    constructor
    · show (RiscvFuzz.decode_fuel (RiscvFuzz.encode_int_only_record regs c)
          (RiscvFuzz.encode_int_only_record regs c).length 0).register_dumps = _
      rw [hsingle, hstep]
    · show (RiscvFuzz.decode_fuel (RiscvFuzz.encode_int_only_record regs c)
          (RiscvFuzz.encode_int_only_record regs c).length 0).exception_dumps = _
      rw [hsingle, hstep]
  · intro regs c fcsr fregs et hr hfr hv hcv hfv hfrv
    have hstep := RiscvFuzz.decode_step_int_and_float regs c fcsr fregs hr hfr hv hcv hfv hfrv
    have hlen := RiscvFuzz.encode_int_and_float_length regs c fcsr fregs hr hfr
    have hsingle := RiscvFuzz.decode_fuel_single
      (RiscvFuzz.encode_int_and_float_record regs c fcsr fregs)
      (RiscvFuzz.encode_int_and_float_record regs c fcsr fregs).length
      (by omega) (by omega) (by rw [hstep]; exact hlen.symm)
    constructor
    · show (RiscvFuzz.decode_fuel (RiscvFuzz.encode_int_and_float_record regs c fcsr fregs)
          (RiscvFuzz.encode_int_and_float_record regs c fcsr fregs).length 0).register_dumps = _
      rw [hsingle, hstep]
    · show (RiscvFuzz.decode_fuel (RiscvFuzz.encode_int_and_float_record regs c fcsr fregs)
          (RiscvFuzz.encode_int_and_float_record regs c fcsr fregs).length 0).exception_dumps = _
      rw [hsingle, hstep]
  · intro e et he
    have hstep := RiscvFuzz.decode_step_exception e he
    have hlen := RiscvFuzz.encode_exception_length e
    have hsingle := RiscvFuzz.decode_fuel_single (RiscvFuzz.encode_exception_record e)
      (RiscvFuzz.encode_exception_record e).length
      (by omega) (by omega) (by rw [hstep]; exact hlen.symm)
    constructor
    · show (RiscvFuzz.decode_fuel (RiscvFuzz.encode_exception_record e)
          (RiscvFuzz.encode_exception_record e).length 0).exception_dumps = _
      rw [hsingle, hstep]
    · show (RiscvFuzz.decode_fuel (RiscvFuzz.encode_exception_record e)
          (RiscvFuzz.encode_exception_record e).length 0).register_dumps = _
      rw [hsingle, hstep]

/-- C3 (witness): the theorem applied to concrete all-zero records. -/
theorem c3_record_roundtrip_witness :
    ((List.replicate 32 0).length = 32 ∧
      (∀ v ∈ List.replicate 32 (0 : Nat), v < 18446744073709551616) ∧
      (∀ v ∈ RiscvFuzz.core_csr_values ⟨0, 0, 0, 0, 0, 0, 0, 0, 0, 0, 0, 0, 0, 0, 0, 0, 0, 0⟩,
        v < 18446744073709551616) ∧
      (∀ v ∈ RiscvFuzz.exception_csr_values ⟨0, 0, 0, 0, 0, 0, 0, 0, 0⟩,
        v < 18446744073709551616)) ∧
    (RiscvFuzz.parse_common_binary_data
        (RiscvFuzz.encode_int_only_record (List.replicate 32 0)
          ⟨0, 0, 0, 0, 0, 0, 0, 0, 0, 0, 0, 0, 0, 0, 0, 0, 0, 0⟩)
        RiscvFuzz.EmulatorType.spike).register_dumps
      = [⟨RiscvFuzz.MarkerType.registersIntOnly, List.replicate 32 0,
          ⟨0, 0, 0, 0, 0, 0, 0, 0, 0, 0, 0, 0, 0, 0, 0, 0, 0, 0⟩, none, none, 0⟩] ∧
    (RiscvFuzz.parse_common_binary_data
        (RiscvFuzz.encode_exception_record ⟨0, 0, 0, 0, 0, 0, 0, 0, 0⟩)
        RiscvFuzz.EmulatorType.spike).exception_dumps
      = [⟨⟨0, 0, 0, 0, 0, 0, 0, 0, 0⟩, 0, none⟩] :=
  ⟨⟨by decide, by decide, by decide, by decide⟩,
    (c3_record_roundtrip.1 (List.replicate 32 0)
      ⟨0, 0, 0, 0, 0, 0, 0, 0, 0, 0, 0, 0, 0, 0, 0, 0, 0, 0⟩
      RiscvFuzz.EmulatorType.spike (by decide) (by decide) (by decide)).1,
    (c3_record_roundtrip.2.2 ⟨0, 0, 0, 0, 0, 0, 0, 0, 0⟩
      RiscvFuzz.EmulatorType.spike (by decide)).1⟩

namespace RiscvFuzz

/-! ### Lemmas on the exception matcher (claims C2 and C10) -/

theorem find_filter {p q : Nat → Bool} (L : List Nat) :
    (L.filter q).find? p = L.find? (fun i => p i && q i) := by
  induction L with
  | nil => rfl
  | cons x rest ih =>
    by_cases hq : q x
    · rw [List.filter_cons_of_pos hq]
      by_cases hp : p x
      · rw [List.find?_cons_of_pos _ hp, List.find?_cons_of_pos _ (by simp [hp, hq])]
      · rw [List.find?_cons_of_neg _ hp,
          List.find?_cons_of_neg _ (by simp [hp]), ih]
    · rw [List.filter_cons_of_neg hq,
        List.find?_cons_of_neg _ (by simp [hq]), ih]

theorem find_unmatched_eq_lowest (list2 : List ExceptionDump) (matched : List Bool)
    (mepc : Nat) :
    (mepc_indices list2 mepc).find? (fun i => !(matched.getD i false))
      = lowest_unconsumed_index list2 matched mepc := by
  unfold mepc_indices lowest_unconsumed_index
  rw [find_filter]

theorem match_loop_spec_walk (list2 : List ExceptionDump) (sim1 : EmulatorType)
    (l1 : List ExceptionDump) :
    ∀ matched : List Bool,
      (match_loop list2 sim1 l1 matched).paired.map (fun p => (p.exception1, p.exception2))
          = (spec_walk list2 l1 matched).1 ∧
      (match_loop list2 sim1 l1 matched).list1_only = (spec_walk list2 l1 matched).2.1 ∧
      (match_loop list2 sim1 l1 matched).matched = (spec_walk list2 l1 matched).2.2 := by
  induction l1 with
  | nil => intro matched; exact ⟨rfl, rfl, rfl⟩
  | cons a rest ih =>
    intro matched
    unfold match_loop spec_walk
    rw [find_unmatched_eq_lowest]
    cases hlu : lowest_unconsumed_index list2 matched a.csrs.mepc with
    | some j =>
      dsimp only
      obtain ⟨ih1, ih2, ih3⟩ := ih (matched.set j true)
      exact ⟨by rw [List.map_cons, ih1], ih2, ih3⟩
    | none =>
      dsimp only
      obtain ⟨ih1, ih2, ih3⟩ := ih matched
      exact ⟨ih1, by rw [ih2], ih3⟩

theorem match_loop_partition (list2 : List ExceptionDump) (sim1 : EmulatorType)
    (l1 : List ExceptionDump) :
    ∀ matched : List Bool,
      (match_loop list2 sim1 l1 matched).paired.length
          + (match_loop list2 sim1 l1 matched).list1_only.length = l1.length := by
  induction l1 with
  | nil => intro matched; rfl
  | cons a rest ih =>
    intro matched
    unfold match_loop
    cases hlu : (mepc_indices list2 a.csrs.mepc).find?
        (fun i => !(matched.getD i false)) with
    | some j =>
      dsimp only
      have := ih (matched.set j true)
      simp only [List.length_cons]
      omega
    | none =>
      dsimp only
      have := ih matched
      simp only [List.length_cons]
      omega

theorem countP_set_true (l : List Bool) :
    ∀ j, j < l.length → l.getD j false = false →
      ((l.set j true).countP (fun b => b)) = l.countP (fun b => b) + 1 := by
  induction l with
  | nil => intro j hj; simp at hj
  | cons b rest ih =>
    intro j hj hf
    cases j with
    | zero =>
      simp only [List.getD_cons_zero] at hf
      subst hf
      simp [List.set, List.countP_cons]
    | succ j =>
      simp only [List.getD_cons_succ] at hf
      simp only [List.length_cons] at hj
      simp only [List.set, List.countP_cons]
      rw [ih j (by omega) hf]
      by_cases hb : b = true <;> simp [hb] <;> omega

theorem find_some_bounds (list2 : List ExceptionDump) (matched : List Bool)
    (mepc : Nat) (j : Nat)
    (h : (mepc_indices list2 mepc).find? (fun i => !(matched.getD i false)) = some j) :
    j < list2.length ∧ matched.getD j false = false := by
  have hmem := List.mem_of_find?_eq_some h
  have hpred := List.find?_some h
  unfold mepc_indices at hmem
  rw [List.mem_filter, List.mem_range] at hmem
  refine ⟨hmem.1, ?_⟩
  cases hgd : matched.getD j false
  · rfl
  · rw [hgd] at hpred; simp at hpred

theorem match_loop_matched (list2 : List ExceptionDump) (sim1 : EmulatorType)
    (l1 : List ExceptionDump) :
    ∀ matched : List Bool, matched.length = list2.length →
      (match_loop list2 sim1 l1 matched).matched.length = matched.length ∧
      (match_loop list2 sim1 l1 matched).matched.countP (fun b => b)
        = matched.countP (fun b => b) + (match_loop list2 sim1 l1 matched).paired.length := by
  induction l1 with
  | nil => intro matched _; exact ⟨rfl, by simp [match_loop]⟩
  | cons a rest ih =>
    intro matched hml
    unfold match_loop
    cases hlu : (mepc_indices list2 a.csrs.mepc).find?
        (fun i => !(matched.getD i false)) with
    | some j =>
      dsimp only
      obtain ⟨hj, hgd⟩ := find_some_bounds list2 matched a.csrs.mepc j hlu
      have hsl : (matched.set j true).length = matched.length := List.length_set matched j true
      obtain ⟨ihl, ihc⟩ := ih (matched.set j true) (by omega)
      refine ⟨by rw [ihl, hsl], ?_⟩
      rw [ihc, countP_set_true matched j (by omega) hgd]
      simp only [List.length_cons]
      omega
    | none =>
      dsimp only
      obtain ⟨ihl, ihc⟩ := ih matched hml
      exact ⟨ihl, by rw [ihc]⟩

theorem filterMap_if_length {α : Type} (f : Nat → Bool) (g : Nat → α) (L : List Nat) :
    (L.filterMap (fun i => if f i then none else some (g i))).length
      = L.countP (fun i => !f i) := by
  induction L with
  | nil => rfl
  | cons x rest ih =>
    by_cases hf : f x
    · rw [List.filterMap_cons_none (by simp [hf]), List.countP_cons_of_neg _ _ (by simp [hf])]
      exact ih
    · rw [@List.filterMap_cons_some _ _ (fun i => if f i then none else some (g i))
          x rest (g x) (by simp [hf]),
        List.countP_cons_of_pos _ _ (by simp [hf]), List.length_cons, ih]

theorem range_countP_getD (l : List Bool) (n : Nat) (hn : n = l.length) :
    (List.range n).countP (fun i => !(l.getD i false))
      = l.countP (fun b => !b) := by
  subst hn
  induction l with
  | nil => rfl
  | cons b rest ih =>
    rw [List.length_cons, List.range_succ_eq_map, List.countP_cons, List.countP_map]
    have : ((fun i => !(((b :: rest).getD i false))) ∘ Nat.succ)
        = fun i => !(rest.getD i false) := by
      funext i
      simp [Function.comp, List.getD_cons_succ]
    rw [this, ih]
    simp [List.getD_cons_zero]
    by_cases hb : b = true <;> simp [hb]

theorem countP_not_add (l : List Bool) :
    l.countP (fun b => !b) + l.countP (fun b => b) = l.length := by
  induction l with
  | nil => rfl
  | cons b rest ih =>
    rw [List.countP_cons, List.countP_cons, List.length_cons]
    by_cases hb : b = true <;> simp [hb] <;> omega

theorem countP_replicate_false (n : Nat) :
    (List.replicate n false).countP (fun b => b) = 0 := by
  induction n with
  | zero => rfl
  | succ n ih => rw [List.replicate_succ, List.countP_cons]; simp [ih]

end RiscvFuzz

/-- C2: the matcher pairs exceptions exclusively by mepc equality exactly
as the claim describes: walking list_a in order, each entry is paired with
the lowest-index unconsumed list_b entry of equal mepc (recorded even when
the field-difference list is empty), entries without an unconsumed match
go to only_in_a, and the still-unconsumed list_b entries go to only_in_b,
for any iteration order of the categorization map. -/
theorem c2_matching_by_mepc (cat_order : List RiscvFuzz.ExceptionDiffCategory)
    (list1 list2 : List RiscvFuzz.ExceptionDump)
    (s1 s2 : RiscvFuzz.EmulatorType) :
    (RiscvFuzz.compare_exception_dump_lists cat_order list1 list2 s1 s2
        ).paired_exceptions_diffs.map (fun p => (p.exception1, p.exception2))
      = (RiscvFuzz.compare_exceptions_spec list1 list2).paired ∧
    (RiscvFuzz.compare_exception_dump_lists cat_order list1 list2 s1 s2
        ).list1_only_exceptions
      = (RiscvFuzz.compare_exceptions_spec list1 list2).only_in_a ∧
    (RiscvFuzz.compare_exception_dump_lists cat_order list1 list2 s1 s2
        ).list2_only_exceptions
      = (RiscvFuzz.compare_exceptions_spec list1 list2).only_in_b := by
  obtain ⟨h1, h2, h3⟩ := RiscvFuzz.match_loop_spec_walk list2 s1 list1
    (List.replicate list2.length false)
  refine ⟨?_, ?_, ?_⟩
  · show (RiscvFuzz.match_loop list2 s1 list1
        (List.replicate list2.length false)).paired.map (fun p => (p.exception1, p.exception2))
      = (RiscvFuzz.spec_walk list2 list1 (List.replicate list2.length false)).1
    exact h1
  · show (RiscvFuzz.match_loop list2 s1 list1
        (List.replicate list2.length false)).list1_only
      = (RiscvFuzz.spec_walk list2 list1 (List.replicate list2.length false)).2.1
    exact h2
  · show (List.range list2.length).filterMap (fun i =>
        if (RiscvFuzz.match_loop list2 s1 list1
            (List.replicate list2.length false)).matched.getD i false then none
        else some (list2.getD i RiscvFuzz.default_exception_dump))
      = (List.range list2.length).filterMap (fun i =>
        if (RiscvFuzz.spec_walk list2 list1
            (List.replicate list2.length false)).2.2.getD i false then none
        else some (list2.getD i RiscvFuzz.default_exception_dump))
    rw [h3]

/-- C10: the matching partitions both inputs: the number of paired entries
plus the only_in_a count equals the length of list1, and the number of
paired entries plus the only_in_b count equals the length of list2. -/
theorem c10_matching_partition (cat_order : List RiscvFuzz.ExceptionDiffCategory)
    (list1 list2 : List RiscvFuzz.ExceptionDump)
    (s1 s2 : RiscvFuzz.EmulatorType) :
    (RiscvFuzz.compare_exception_dump_lists cat_order list1 list2 s1 s2
        ).paired_exceptions_diffs.length
      + (RiscvFuzz.compare_exception_dump_lists cat_order list1 list2 s1 s2
        ).list1_only_exceptions.length = list1.length ∧
    (RiscvFuzz.compare_exception_dump_lists cat_order list1 list2 s1 s2
        ).paired_exceptions_diffs.length
      + (RiscvFuzz.compare_exception_dump_lists cat_order list1 list2 s1 s2
        ).list2_only_exceptions.length = list2.length := by
  have hml : (List.replicate list2.length false).length = list2.length :=
    List.length_replicate _ _
  obtain ⟨hl, hc⟩ := RiscvFuzz.match_loop_matched list2 s1 list1
    (List.replicate list2.length false) hml
  constructor
  · show (RiscvFuzz.match_loop list2 s1 list1
          (List.replicate list2.length false)).paired.length
        + (RiscvFuzz.match_loop list2 s1 list1
          (List.replicate list2.length false)).list1_only.length = list1.length
    exact RiscvFuzz.match_loop_partition list2 s1 list1 _
  · show (RiscvFuzz.match_loop list2 s1 list1
          (List.replicate list2.length false)).paired.length
        + ((List.range list2.length).filterMap (fun i =>
          if (RiscvFuzz.match_loop list2 s1 list1
              (List.replicate list2.length false)).matched.getD i false then none
          else some (list2.getD i RiscvFuzz.default_exception_dump))).length
        = list2.length
    rw [RiscvFuzz.filterMap_if_length
      (fun i => (RiscvFuzz.match_loop list2 s1 list1
        (List.replicate list2.length false)).matched.getD i false)
      (fun i => list2.getD i RiscvFuzz.default_exception_dump)]
    rw [RiscvFuzz.range_countP_getD
      ((RiscvFuzz.match_loop list2 s1 list1
        (List.replicate list2.length false)).matched) list2.length (by omega)]
    have hadd := RiscvFuzz.countP_not_add
      ((RiscvFuzz.match_loop list2 s1 list1
        (List.replicate list2.length false)).matched)
    have hrep := RiscvFuzz.countP_replicate_false list2.length
    omega

namespace RiscvFuzz

/-! ### Lemmas on the categorization sort (claim C6) -/

theorem char_list_le_total (a : List Char) :
    ∀ b, char_list_le a b = true ∨ char_list_le b a = true := by
  induction a with
  | nil => intro b; exact Or.inl rfl
  | cons x xs ih =>
    intro b
    cases b with
    | nil => exact Or.inr rfl
    | cons y ys =>
      unfold char_list_le
      rcases Nat.lt_trichotomy x.toNat y.toNat with h | h | h
      · rw [if_pos h]; exact Or.inl rfl
      · rw [if_neg (by omega), if_neg (by omega), if_neg (by omega), if_neg (by omega)]
        exact ih ys
      · right
        rw [if_pos h]

theorem char_list_le_trans (a : List Char) :
    ∀ b c, char_list_le a b = true → char_list_le b c = true →
      char_list_le a c = true := by
  induction a with
  | nil => intro b c _ _; rfl
  | cons x xs ih =>
    intro b c hab hbc
    cases b with
    | nil => exact absurd hab (by simp [char_list_le])
    | cons y ys =>
      cases c with
      | nil => exact absurd hbc (by simp [char_list_le])
      | cons z zs =>
        unfold char_list_le at hab hbc ⊢
        by_cases hxy : x.toNat < y.toNat
        · rw [if_pos hxy] at hab
          by_cases hyz : y.toNat < z.toNat
          · rw [if_pos (by omega)]
          · rw [if_neg hyz] at hbc
            by_cases hzy : z.toNat < y.toNat
            · rw [if_pos hzy] at hbc; exact absurd hbc (by simp)
            · rw [if_pos (by omega)]
        · rw [if_neg hxy] at hab
          by_cases hyx : y.toNat < x.toNat
          · rw [if_pos hyx] at hab; exact absurd hab (by simp)
          · rw [if_neg hyx] at hab
            by_cases hyz : y.toNat < z.toNat
            · rw [if_pos (by omega)]
            · rw [if_neg hyz] at hbc
              by_cases hzy : z.toNat < y.toNat
              · rw [if_pos hzy] at hbc; exact absurd hbc (by simp)
              · rw [if_neg hzy] at hbc
                rw [if_neg (by omega), if_neg (by omega)]
                exact ih ys zs hab hbc

instance cat_le_total : IsTotal CategorizedExceptionDiffs cat_le := by
  constructor
  intro a b
  unfold cat_le
  rcases Nat.lt_trichotomy a.count b.count with h | h | h
  · exact Or.inr (Or.inl h)
  · rcases char_list_le_total (format_category_name a.category).toList
        (format_category_name b.category).toList with hn | hn
    · exact Or.inl (Or.inr ⟨h, hn⟩)
    · exact Or.inr (Or.inr ⟨h.symm, hn⟩)
  · exact Or.inl (Or.inl h)

instance cat_le_trans : IsTrans CategorizedExceptionDiffs cat_le := by
  constructor
  intro a b c hab hbc
  unfold cat_le at hab hbc ⊢
  rcases hab with hab | ⟨hab1, hab2⟩
  · rcases hbc with hbc | ⟨hbc1, hbc2⟩
    · exact Or.inl (by omega)
    · exact Or.inl (by omega)
  · rcases hbc with hbc | ⟨hbc1, hbc2⟩
    · exact Or.inl (by omega)
    · exact Or.inr ⟨by omega, char_list_le_trans _ _ _ hab2 hbc2⟩

theorem analyze_sorted (cat_order : List ExceptionDiffCategory)
    (raw_diffs : List ExceptionDiffInfo) :
    List.Sorted cat_le (analyze_and_categorize_exception_diffs cat_order raw_diffs) :=
  List.sorted_insertionSort cat_le _

end RiscvFuzz

/-- C6 (amended): given the input order and the iteration order of the
internal category hash map, compare_exceptions is a function and its
categorized summary is sorted by descending occurrence count with ties
broken by the category-name ordering; distinct categories sharing both
count and name may appear in either order depending on the map's
iteration order (see the counterexample). -/
theorem c6_categorized_sorted (cat_order : List RiscvFuzz.ExceptionDiffCategory)
    (list1 list2 : List RiscvFuzz.ExceptionDump)
    (s1 s2 : RiscvFuzz.EmulatorType) :
    List.Sorted RiscvFuzz.cat_le
      (RiscvFuzz.compare_exception_dump_lists cat_order list1 list2 s1 s2
        ).categorized_summary := by
  show List.Sorted RiscvFuzz.cat_le
    (if ((RiscvFuzz.match_loop list2 s1 list1 (List.replicate list2.length false)).raw ++
        (List.range list2.length).filterMap (fun i =>
          if (RiscvFuzz.match_loop list2 s1 list1
              (List.replicate list2.length false)).matched.getD i false then none
          else some (RiscvFuzz.only_in_info s2
            (list2.getD i RiscvFuzz.default_exception_dump)))).isEmpty
      then []
      else RiscvFuzz.analyze_and_categorize_exception_diffs cat_order
        ((RiscvFuzz.match_loop list2 s1 list1 (List.replicate list2.length false)).raw ++
          (List.range list2.length).filterMap (fun i =>
            if (RiscvFuzz.match_loop list2 s1 list1
                (List.replicate list2.length false)).matched.getD i false then none
            else some (RiscvFuzz.only_in_info s2
              (list2.getD i RiscvFuzz.default_exception_dump)))))
  split
  · exact List.sorted_nil
  · exact RiscvFuzz.analyze_sorted cat_order _

/-- C6 (counterexample): two valid iteration orders of the category map
(the two permutations of the same two-category set) yield different
categorized summaries on the same inputs: the two categories are distinct
FixedMipDifference values with equal count 1 and equal category name, so
the comparator ties and the stable sort keeps the map order. -/
theorem c6_order_dependent :
    List.Perm
      [RiscvFuzz.ExceptionDiffCategory.FixedMipDifference 1 2,
        RiscvFuzz.ExceptionDiffCategory.FixedMipDifference 3 4]
      [RiscvFuzz.ExceptionDiffCategory.FixedMipDifference 3 4,
        RiscvFuzz.ExceptionDiffCategory.FixedMipDifference 1 2] ∧
    (RiscvFuzz.compare_exception_dump_lists
        [RiscvFuzz.ExceptionDiffCategory.FixedMipDifference 1 2,
          RiscvFuzz.ExceptionDiffCategory.FixedMipDifference 3 4]
        [⟨⟨0, 0, 1, 0, 0, 1, 0, 0, 0⟩, 0, none⟩, ⟨⟨0, 0, 2, 0, 0, 3, 0, 0, 0⟩, 0, none⟩]
        [⟨⟨0, 0, 1, 0, 0, 2, 0, 0, 0⟩, 0, none⟩, ⟨⟨0, 0, 2, 0, 0, 4, 0, 0, 0⟩, 0, none⟩]
        RiscvFuzz.EmulatorType.spike RiscvFuzz.EmulatorType.rocket).categorized_summary
      ≠ (RiscvFuzz.compare_exception_dump_lists
        [RiscvFuzz.ExceptionDiffCategory.FixedMipDifference 3 4,
          RiscvFuzz.ExceptionDiffCategory.FixedMipDifference 1 2]
        [⟨⟨0, 0, 1, 0, 0, 1, 0, 0, 0⟩, 0, none⟩, ⟨⟨0, 0, 2, 0, 0, 3, 0, 0, 0⟩, 0, none⟩]
        [⟨⟨0, 0, 1, 0, 0, 2, 0, 0, 0⟩, 0, none⟩, ⟨⟨0, 0, 2, 0, 0, 4, 0, 0, 0⟩, 0, none⟩]
        RiscvFuzz.EmulatorType.spike RiscvFuzz.EmulatorType.rocket).categorized_summary := by
  constructor
  · decide
  · decide
